import Mathlib

/-! coinmarketcap: a Go client for the CoinMarketCap v2 API

A shallow embedding of `coinmarketcap.go` and a verification of its behaviour.

The four operations `GetListings`, `GetTicks`, `GetTick` and `GetGlobalData` are
embedded as functions of an environment `Env`, which stands for the Go standard
library code the client calls but does not contain: the URL validation done by
`http.NewRequest`, the transport behind `http.Client.Do`, and the way
`encoding/json` stores a JSON value into each payload type.  Every operation
returns its Go result pair together with the list of effects it performed
(transport invocations, decoder reads of the body, closes of the body).

The stores of `encoding/json` for the payload types are modelled as well, from
the struct tags of the data model; `Env.usesEncodingJSON` says that an
environment has these stores. What is proved for every environment holds for
every library; what is proved of the returned payload is proved for these stores.
-/

namespace coinmarketcap

/-! ## Go values -/

/-- A Go error value, identified by its message. -/
structure GoError where
  msg : String
deriving DecidableEq, Repr

/-- The function `errors.New` of the Go standard library. -/
def errors.New (text : String) : GoError := ⟨text⟩

/-- The rendering of a Go `int` by the verb `%v` of `fmt`: its decimal numeral,
with a leading minus sign when negative. -/
def fmtInt (n : Int) : String := toString n

/-- A Go `float64`, carried by its IEEE-754 bit pattern. The client stores and
returns such values and never computes with them; the zero value is `+0`. -/
structure Float64 where
  bits : Nat
deriving DecidableEq, Repr

/-- A Go slice: `none` is the nil slice. -/
abbrev Slice (α : Type) := Option (List α)

/-- A Go `map[string]α`: `none` is the nil map; the entries are held as an
association list. -/
abbrev GoMap (α : Type) := Option (List (String × α))

/-! ## Constants (lines 11-14) -/

def ApiURLV2 : String := "https://api.coinmarketcap.com/v2"
def ApiTicker : String := "/ticker/"
def ApiListings : String := "/listings/"
def ApiGlobal : String := "/global/"

/-! ## Data model (lines 16-82) -/

structure Listing where
  Id : Int
  Name : String
  Symbol : String
  WebsiteSlug : String
deriving DecidableEq, Repr

structure Quote where
  Price : Float64
  Volume24h : Float64
  MarketCap : Float64
  PriceChange1h : Float64
  PriceChange24h : Float64
  PriceChange7d : Float64
deriving DecidableEq, Repr

structure Ticker where
  Id : Int
  Name : String
  Symbol : String
  WebsiteSlug : String
  Rank : Int
  CirculatingSupply : Float64
  TotalSupply : Float64
  MaxSupply : Float64
  Quotes : GoMap Quote
  LastUpdated : Int
deriving DecidableEq, Repr

structure MetaData where
  Timestamp : Int
  NumCryptoCurrencies : String
  Error : String
deriving DecidableEq, Repr

structure GlobalQuote where
  TotalMarketCap : Float64
  TotalVolume24h : Float64
deriving DecidableEq, Repr

structure GlobalData where
  ActiveCryptoCurrencies : Int
  ActiveMarkets : Int
  BitcoinPercentageOfMarketCap : Float64
  Quotes : GoMap GlobalQuote
  LastUpdatedAt : Int
deriving DecidableEq, Repr

structure ListingsResponse where
  Data : Slice Listing
  MetaData : MetaData
deriving DecidableEq, Repr

structure TickersResponse where
  MetaData : MetaData
  Data : GoMap Ticker
deriving DecidableEq, Repr

structure TickerResponse where
  MetaData : MetaData
  Data : Ticker
deriving DecidableEq, Repr

structure GlobalDataResponse where
  Data : GlobalData
  MetaData : MetaData
deriving DecidableEq, Repr

/-- The zero value `Ticker{}`. -/
def Ticker.zero : Ticker :=
  { Id := 0, Name := "", Symbol := "", WebsiteSlug := "", Rank := 0,
    CirculatingSupply := ⟨0⟩, TotalSupply := ⟨0⟩, MaxSupply := ⟨0⟩,
    Quotes := none, LastUpdated := 0 }

/-- The zero value `MetaData{}`. -/
def MetaData.zero : MetaData :=
  { Timestamp := 0, NumCryptoCurrencies := "", Error := "" }

/-- The zero value `GlobalData{}`. -/
def GlobalData.zero : GlobalData :=
  { ActiveCryptoCurrencies := 0, ActiveMarkets := 0, BitcoinPercentageOfMarketCap := ⟨0⟩,
    Quotes := none, LastUpdatedAt := 0 }

/-- The zero value `ListingsResponse{}` (line 102). -/
def ListingsResponse.zero : ListingsResponse := { Data := none, MetaData := MetaData.zero }

/-- The zero value `TickersResponse{}` (line 138). -/
def TickersResponse.zero : TickersResponse := { MetaData := MetaData.zero, Data := none }

/-- The zero value `TickerResponse{}` (line 168). -/
def TickerResponse.zero : TickerResponse := { MetaData := MetaData.zero, Data := Ticker.zero }

/-- The zero value `GlobalDataResponse{}` (line 198). -/
def GlobalDataResponse.zero : GlobalDataResponse :=
  { Data := GlobalData.zero, MetaData := MetaData.zero }

/-! ## JSON values and response bodies -/

/-- A JSON value. A number keeps its literal, object members keep their order
(and may repeat a name). -/
inductive JSON where
  | null
  | bool (b : Bool)
  | num (lit : String)
  | str (s : String)
  | arr (xs : List JSON)
  | obj (ms : List (String × JSON))

/-- What a `json.Decoder` finds when it reads a response body: either the stream
does not begin with a complete JSON value, and the decoder reports `err` (a
syntax error, `io.EOF`, a read error), or it begins with the JSON value `v`. -/
inductive Body where
  | invalid (err : GoError)
  | value (v : JSON)

/-! ## HTTP -/

structure Request where
  Method : String
  URL : String
  Header : List (String × String)
deriving DecidableEq, Repr

/-- The method `Header.Add` on the header of a request. -/
def Request.addHeader (req : Request) (key value : String) : Request :=
  { req with Header := req.Header ++ [(key, value)] }

/-- The constant `time.Second`, in nanoseconds. -/
def time.Second : Nat := 1000000000

structure Client where
  Timeout : Nat
deriving DecidableEq, Repr

structure Response where
  StatusCode : Int
  Body : Body

/-- The constant `http.StatusOK`. -/
def http.StatusOK : Int := 200

/-- The library code around the client.
* `urlError url` is the error with which `http.NewRequest` rejects `url`, if it does;
* `Do c req` is the outcome of `c.Do(req)`: a transport error, or a response;
* `storeListings`, `storeTickers`, `storeTicker`, `storeGlobalData` are how
  `encoding/json` stores a JSON value into a Go value of the payload type: the
  new value, and the error it records, if any. -/
structure Env where
  urlError : String → Option GoError
  Do : Client → Request → Except GoError Response
  storeListings : JSON → Slice Listing → Slice Listing × Option GoError
  storeTickers : JSON → GoMap Ticker → GoMap Ticker × Option GoError
  storeTicker : JSON → Ticker → Ticker × Option GoError
  storeGlobalData : JSON → GlobalData → GlobalData × Option GoError

/-- The function `http.NewRequest` with a nil body: it fails when the URL does
not parse, and otherwise gives a request with an empty header. -/
def http.NewRequest (env : Env) (method url : String) : Except GoError Request :=
  match env.urlError url with
  | some err => .error err
  | none => .ok { Method := method, URL := url, Header := [] }

/-- The effects of a call that are observable from outside. -/
inductive Event where
  | send (c : Client) (req : Request)
  | decode
  | close
deriving DecidableEq, Repr

/-- What a call returns, the Go pair `(val, err)`, and the effects it performed,
in order. -/
structure Outcome (α : Type) where
  val : α
  err : Option GoError
  trace : List Event

/-- The number of transport invocations in a trace. -/
def sends (t : List Event) : Nat :=
  (t.filter fun e => match e with | .send _ _ => true | _ => false).length

/-- The URLs of the requests handed to the transport, in order. -/
def requestedURLs : List Event → List String
  | [] => []
  | .send _ req :: t => req.URL :: requestedURLs t
  | _ :: t => requestedURLs t

/-- The number of decoder reads of the body in a trace. -/
def decodes (t : List Event) : Nat := t.count .decode

/-- The close counter of the response body: the number of `Close` calls in a trace. -/
def closes (t : List Event) : Nat := t.count .close

/-! ## The part of `encoding/json` that reads the envelope -/

/-- The error `encoding/json` records when a JSON value does not fit the Go type. -/
def json.UnmarshalTypeError : GoError := ⟨"json: cannot unmarshal value into Go value"⟩

/-- The value of a non-empty string of decimal digits. -/
def strconv.digits (ds : List Char) : Option Nat :=
  if ds ≠ [] ∧ ds.all Char.isDigit = true then
    some (ds.foldl (fun n c => 10 * n + (c.toNat - 48)) 0)
  else none

/-- The function `strconv.ParseInt(s, 10, 64)`: an optional sign, decimal
digits, and the value within the range of `int64`. -/
def strconv.ParseInt (s : String) : Option Int :=
  match s.toList with
  | '-' :: ds => (strconv.digits ds).bind fun n => if n ≤ 2 ^ 63 then some (-(n : Int)) else none
  | '+' :: ds => (strconv.digits ds).bind fun n => if n < 2 ^ 63 then some (n : Int) else none
  | ds => (strconv.digits ds).bind fun n => if n < 2 ^ 63 then some (n : Int) else none

/-- Storing a JSON value into a Go `string`: a string is stored, `null` leaves
the target as it is, anything else is a type error and leaves it as it is. -/
def json.storeString (v : JSON) (cur : String) : String × Option GoError :=
  match v with
  | .null => (cur, none)
  | .str s => (s, none)
  | _ => (cur, some json.UnmarshalTypeError)

/-- Storing a JSON value into a Go `int64`: a number whose literal is an integer
in range is stored, `null` leaves the target as it is, anything else is a type error. -/
def json.storeInt64 (v : JSON) (cur : Int) : Int × Option GoError :=
  match v with
  | .null => (cur, none)
  | .num lit =>
    match strconv.ParseInt lit with
    | some n => (n, none)
    | none => (cur, some json.UnmarshalTypeError)
  | _ => (cur, some json.UnmarshalTypeError)

/-- Case folding of one character of a member name: ASCII letters to upper case,
and the two other characters whose simple case folding is an ASCII letter (the
Kelvin sign and the long s). No other character folds to an ASCII character, and
every field tag of the client is ASCII, so this decides the match of a member
name against a tag exactly as `encoding/json` does. -/
def json.foldRune (c : Char) : Char :=
  if c.toNat = 0x212A then 'K' else if c.toNat = 0x17F then 'S' else c.toUpper

/-- The folded form of a member name. -/
def json.foldName (s : String) : List Char := s.toList.map json.foldRune

/-- The struct field a member name addresses: the field whose tag is the name
exactly, and failing that the field whose tag equals it up to case. -/
def json.findField {F : Type} (fields : List F) (tag : F → String) (key : String) : Option F :=
  match fields.find? (fun f => tag f == key) with
  | some f => some f
  | none => fields.find? (fun f => json.foldName (tag f) == json.foldName key)

/-- The first error recorded wins (`saveError`). -/
def json.saveError (saved new : Option GoError) : Option GoError :=
  match saved with
  | some e => some e
  | none => new

/-- The fields of `MetaData`. -/
inductive MetaData.Field where
  | Timestamp
  | NumCryptoCurrencies
  | Error
deriving DecidableEq, Repr

/-- The `json:"..."` tags of `MetaData` (lines 61-63). -/
def MetaData.Field.tag : MetaData.Field → String
  | .Timestamp => "timestamp"
  | .NumCryptoCurrencies => "num_cryptocurrencies"
  | .Error => "error"

def MetaData.fields : List MetaData.Field := [.Timestamp, .NumCryptoCurrencies, .Error]

/-- Storing one member of a JSON object into a `MetaData`; a member that
addresses no field is skipped. -/
def MetaData.storeMember (key : String) (v : JSON) (cur : MetaData) : MetaData × Option GoError :=
  match json.findField MetaData.fields MetaData.Field.tag key with
  | some .Timestamp =>
    let r := json.storeInt64 v cur.Timestamp
    ({ cur with Timestamp := r.1 }, r.2)
  | some .NumCryptoCurrencies =>
    let r := json.storeString v cur.NumCryptoCurrencies
    ({ cur with NumCryptoCurrencies := r.1 }, r.2)
  | some .Error =>
    let r := json.storeString v cur.Error
    ({ cur with Error := r.1 }, r.2)
  | none => (cur, none)

/-- Storing the members of a JSON object into a `MetaData`, in order. -/
def MetaData.storeMembers : List (String × JSON) → MetaData → MetaData × Option GoError
  | [], cur => (cur, none)
  | (key, v) :: rest, cur =>
    let r1 := MetaData.storeMember key v cur
    let r2 := MetaData.storeMembers rest r1.1
    (r2.1, json.saveError r1.2 r2.2)

/-- Storing a JSON value into a `MetaData`. -/
def MetaData.store (v : JSON) (cur : MetaData) : MetaData × Option GoError :=
  match v with
  | .null => (cur, none)
  | .obj ms => MetaData.storeMembers ms cur
  | _ => (cur, some json.UnmarshalTypeError)

/-- The two fields of a response envelope. -/
inductive EnvelopeField where
  | Data
  | MetaData
deriving DecidableEq, Repr

/-- The tags of an envelope: `data`, and the tag `metaTag` its struct gives to
its `MetaData` field. -/
def EnvelopeField.tag (metaTag : String) : EnvelopeField → String
  | .Data => "data"
  | .MetaData => metaTag

/-- Storing one member of a JSON object into an envelope with payload type `D`. -/
def json.storeEnvelopeMember {D : Type} (metaTag : String)
    (storeData : JSON → D → D × Option GoError)
    (key : String) (v : JSON) (cur : D × MetaData) : (D × MetaData) × Option GoError :=
  match json.findField [EnvelopeField.Data, EnvelopeField.MetaData] (EnvelopeField.tag metaTag) key with
  | some .Data =>
    let r := storeData v cur.1
    ((r.1, cur.2), r.2)
  | some .MetaData =>
    let r := MetaData.store v cur.2
    ((cur.1, r.1), r.2)
  | none => (cur, none)

/-- Storing the members of a JSON object into an envelope, in order. -/
def json.storeEnvelopeMembers {D : Type} (metaTag : String)
    (storeData : JSON → D → D × Option GoError) :
    List (String × JSON) → D × MetaData → (D × MetaData) × Option GoError
  | [], cur => (cur, none)
  | (key, v) :: rest, cur =>
    let r1 := json.storeEnvelopeMember metaTag storeData key v cur
    let r2 := json.storeEnvelopeMembers metaTag storeData rest r1.1
    (r2.1, json.saveError r1.2 r2.2)

/-- Storing a JSON value into an envelope struct. -/
def json.storeEnvelope {D : Type} (metaTag : String)
    (storeData : JSON → D → D × Option GoError)
    (v : JSON) (cur : D × MetaData) : (D × MetaData) × Option GoError :=
  match v with
  | .null => (cur, none)
  | .obj ms => json.storeEnvelopeMembers metaTag storeData ms cur
  | _ => (cur, some json.UnmarshalTypeError)

/-- Storing into a `ListingsResponse`: tags `data` and `metadata` (lines 24-25). -/
def ListingsResponse.store (env : Env) (v : JSON) (cur : ListingsResponse) :
    ListingsResponse × Option GoError :=
  let r := json.storeEnvelope "metadata" env.storeListings v (cur.Data, cur.MetaData)
  ({ Data := r.1.1, MetaData := r.1.2 }, r.2)

/-- Storing into a `TickersResponse`: tags `metadata` and `data` (lines 51-52). -/
def TickersResponse.store (env : Env) (v : JSON) (cur : TickersResponse) :
    TickersResponse × Option GoError :=
  let r := json.storeEnvelope "metadata" env.storeTickers v (cur.Data, cur.MetaData)
  ({ MetaData := r.1.2, Data := r.1.1 }, r.2)

/-- Storing into a `TickerResponse`: tags `metadata` and `data` (lines 56-57). -/
def TickerResponse.store (env : Env) (v : JSON) (cur : TickerResponse) :
    TickerResponse × Option GoError :=
  let r := json.storeEnvelope "metadata" env.storeTicker v (cur.Data, cur.MetaData)
  ({ MetaData := r.1.2, Data := r.1.1 }, r.2)

/-- Storing into a `GlobalDataResponse`: tags `data` and `meta_data` (lines 80-81). -/
def GlobalDataResponse.store (env : Env) (v : JSON) (cur : GlobalDataResponse) :
    GlobalDataResponse × Option GoError :=
  let r := json.storeEnvelope "meta_data" env.storeGlobalData v (cur.Data, cur.MetaData)
  ({ Data := r.1.1, MetaData := r.1.2 }, r.2)

/-- The call `json.NewDecoder(body).Decode(&target)`: the target after the call
and the error returned. When the body does not hold a JSON value the target is
left as it was. -/
def json.Decode {α : Type} (store : JSON → α → α × Option GoError) (body : Body) (target : α) :
    α × Option GoError :=
  match body with
  | .invalid err => (target, some err)
  | .value v => store v target

/-! ## The payload stores of `encoding/json` -/

/-- Storing a JSON value into a Go `float64`: a number is stored when
`ParseFloat`, the function `strconv.ParseFloat(lit, 64)`, gives its value, and is
a type error when it is out of range; `null` leaves the target as it is;
anything else is a type error. -/
def json.storeFloat64 (ParseFloat : String → Option Float64) (v : JSON) (cur : Float64) :
    Float64 × Option GoError :=
  match v with
  | .null => (cur, none)
  | .num lit =>
    match ParseFloat lit with
    | some f => (f, none)
    | none => (cur, some json.UnmarshalTypeError)
  | _ => (cur, some json.UnmarshalTypeError)

/-- Storing the members of a JSON object into a struct, in order: each member is
stored into the field it addresses, a member that addresses no field is skipped. -/
def json.storeFields {S F : Type} (fields : List F) (tag : F → String)
    (storeField : F → JSON → S → S × Option GoError) :
    List (String × JSON) → S → S × Option GoError
  | [], cur => (cur, none)
  | (key, v) :: rest, cur =>
    let r1 :=
      match json.findField fields tag key with
      | some f => storeField f v cur
      | none => (cur, none)
    let r2 := json.storeFields fields tag storeField rest r1.1
    (r2.1, json.saveError r1.2 r2.2)

/-- Storing a JSON value into a struct: an object is stored member by member,
`null` leaves the target as it is, anything else is a type error. -/
def json.storeStruct {S F : Type} (fields : List F) (tag : F → String)
    (storeField : F → JSON → S → S × Option GoError) (v : JSON) (cur : S) :
    S × Option GoError :=
  match v with
  | .null => (cur, none)
  | .obj ms => json.storeFields fields tag storeField ms cur
  | _ => (cur, some json.UnmarshalTypeError)

/-- Storing the elements of a JSON array, in order: element `i` is stored into
element `i` of the old slice when there is one and into a zero value otherwise;
old elements past the end of the array are dropped. -/
def json.storeElements {α : Type} (storeElem : JSON → α → α × Option GoError) (zero : α) :
    List JSON → List α → List α × Option GoError
  | [], _ => ([], none)
  | x :: xs, old =>
    let r1 := storeElem x (old.headD zero)
    let r2 := json.storeElements storeElem zero xs old.tail
    (r1.1 :: r2.1, json.saveError r1.2 r2.2)

/-- Storing a JSON value into a slice: `null` makes it nil, an array is stored
element by element in the order of the array (the empty array gives the empty,
non-nil slice), anything else is a type error. The capacity of a slice is not
kept: the store is that of `encoding/json` on a nil slice and on every slice
whose length is its capacity. -/
def json.storeSlice {α : Type} (storeElem : JSON → α → α × Option GoError) (zero : α)
    (v : JSON) (cur : Slice α) : Slice α × Option GoError :=
  match v with
  | .null => (none, none)
  | .arr xs =>
    let r := json.storeElements storeElem zero xs (cur.getD [])
    (some r.1, r.2)
  | _ => (cur, some json.UnmarshalTypeError)

/-- The assignment `m[key] = val` on the entries of a map. -/
def json.setEntry {α : Type} (key : String) (val : α) :
    List (String × α) → List (String × α)
  | [] => [(key, val)]
  | (k, v) :: rest =>
    if k = key then (key, val) :: rest else (k, v) :: json.setEntry key val rest

/-- Storing the members of a JSON object into a map, in order: the value of each
member is stored into a zero element, which is then assigned to the member's name. -/
def json.storeEntries {α : Type} (storeElem : JSON → α → α × Option GoError) (zero : α) :
    List (String × JSON) → List (String × α) → List (String × α) × Option GoError
  | [], m => (m, none)
  | (key, v) :: rest, m =>
    let r1 := storeElem v zero
    let r2 := json.storeEntries storeElem zero rest (json.setEntry key r1.1 m)
    (r2.1, json.saveError r1.2 r2.2)

/-- Storing a JSON value into a `map[string]α`: `null` makes it nil, an object
is stored member by member into the map (a nil map is made first), anything
else is a type error. -/
def json.storeMap {α : Type} (storeElem : JSON → α → α × Option GoError) (zero : α)
    (v : JSON) (cur : GoMap α) : GoMap α × Option GoError :=
  match v with
  | .null => (none, none)
  | .obj ms =>
    let r := json.storeEntries storeElem zero ms (cur.getD [])
    (some r.1, r.2)
  | _ => (cur, some json.UnmarshalTypeError)

/-- The zero value `Listing{}`. -/
def Listing.zero : Listing := { Id := 0, Name := "", Symbol := "", WebsiteSlug := "" }

/-- The fields of `Listing`. -/
inductive Listing.Field where
  | Id
  | Name
  | Symbol
  | WebsiteSlug
deriving DecidableEq, Repr

/-- The `json:"..."` tags of `Listing` (lines 17-20). -/
def Listing.Field.tag : Listing.Field → String
  | .Id => "id"
  | .Name => "name"
  | .Symbol => "symbol"
  | .WebsiteSlug => "website_slug"

def Listing.fields : List Listing.Field := [.Id, .Name, .Symbol, .WebsiteSlug]

/-- Storing a JSON value into one field of a `Listing`. -/
def Listing.storeField (f : Listing.Field) (v : JSON) (cur : Listing) :
    Listing × Option GoError :=
  match f with
  | .Id =>
    let r := json.storeInt64 v cur.Id
    ({ cur with Id := r.1 }, r.2)
  | .Name =>
    let r := json.storeString v cur.Name
    ({ cur with Name := r.1 }, r.2)
  | .Symbol =>
    let r := json.storeString v cur.Symbol
    ({ cur with Symbol := r.1 }, r.2)
  | .WebsiteSlug =>
    let r := json.storeString v cur.WebsiteSlug
    ({ cur with WebsiteSlug := r.1 }, r.2)

/-- Storing a JSON value into a `Listing`. -/
def Listing.store (v : JSON) (cur : Listing) : Listing × Option GoError :=
  json.storeStruct Listing.fields Listing.Field.tag Listing.storeField v cur

/-- The zero value `Quote{}`. -/
def Quote.zero : Quote :=
  { Price := ⟨0⟩, Volume24h := ⟨0⟩, MarketCap := ⟨0⟩, PriceChange1h := ⟨0⟩,
    PriceChange24h := ⟨0⟩, PriceChange7d := ⟨0⟩ }

/-- The fields of `Quote`. -/
inductive Quote.Field where
  | Price
  | Volume24h
  | MarketCap
  | PriceChange1h
  | PriceChange24h
  | PriceChange7d
deriving DecidableEq, Repr

/-- The `json:"..."` tags of `Quote` (lines 42-47). -/
def Quote.Field.tag : Quote.Field → String
  | .Price => "price"
  | .Volume24h => "volume_24h"
  | .MarketCap => "market_cap"
  | .PriceChange1h => "price_change_1h"
  | .PriceChange24h => "price_change_24h"
  | .PriceChange7d => "price_change_7d"

def Quote.fields : List Quote.Field :=
  [.Price, .Volume24h, .MarketCap, .PriceChange1h, .PriceChange24h, .PriceChange7d]

/-- Storing a JSON value into one field of a `Quote`. -/
def Quote.storeField (ParseFloat : String → Option Float64) (f : Quote.Field) (v : JSON)
    (cur : Quote) : Quote × Option GoError :=
  match f with
  | .Price =>
    let r := json.storeFloat64 ParseFloat v cur.Price
    ({ cur with Price := r.1 }, r.2)
  | .Volume24h =>
    let r := json.storeFloat64 ParseFloat v cur.Volume24h
    ({ cur with Volume24h := r.1 }, r.2)
  | .MarketCap =>
    let r := json.storeFloat64 ParseFloat v cur.MarketCap
    ({ cur with MarketCap := r.1 }, r.2)
  | .PriceChange1h =>
    let r := json.storeFloat64 ParseFloat v cur.PriceChange1h
    ({ cur with PriceChange1h := r.1 }, r.2)
  | .PriceChange24h =>
    let r := json.storeFloat64 ParseFloat v cur.PriceChange24h
    ({ cur with PriceChange24h := r.1 }, r.2)
  | .PriceChange7d =>
    let r := json.storeFloat64 ParseFloat v cur.PriceChange7d
    ({ cur with PriceChange7d := r.1 }, r.2)

/-- Storing a JSON value into a `Quote`. -/
def Quote.store (ParseFloat : String → Option Float64) (v : JSON) (cur : Quote) :
    Quote × Option GoError :=
  json.storeStruct Quote.fields Quote.Field.tag (Quote.storeField ParseFloat) v cur

/-- The fields of `Ticker`. -/
inductive Ticker.Field where
  | Id
  | Name
  | Symbol
  | WebsiteSlug
  | Rank
  | CirculatingSupply
  | TotalSupply
  | MaxSupply
  | Quotes
  | LastUpdated
deriving DecidableEq, Repr

/-- The `json:"..."` tags of `Ticker` (lines 29-38). -/
def Ticker.Field.tag : Ticker.Field → String
  | .Id => "id"
  | .Name => "name"
  | .Symbol => "symbol"
  | .WebsiteSlug => "website_slug"
  | .Rank => "rank"
  | .CirculatingSupply => "circulating_supply"
  | .TotalSupply => "total_supply"
  | .MaxSupply => "max_supply"
  | .Quotes => "quotes"
  | .LastUpdated => "last_updated"

def Ticker.fields : List Ticker.Field :=
  [.Id, .Name, .Symbol, .WebsiteSlug, .Rank, .CirculatingSupply, .TotalSupply, .MaxSupply,
   .Quotes, .LastUpdated]

/-- Storing a JSON value into one field of a `Ticker`. -/
def Ticker.storeField (ParseFloat : String → Option Float64) (f : Ticker.Field) (v : JSON)
    (cur : Ticker) : Ticker × Option GoError :=
  match f with
  | .Id =>
    let r := json.storeInt64 v cur.Id
    ({ cur with Id := r.1 }, r.2)
  | .Name =>
    let r := json.storeString v cur.Name
    ({ cur with Name := r.1 }, r.2)
  | .Symbol =>
    let r := json.storeString v cur.Symbol
    ({ cur with Symbol := r.1 }, r.2)
  | .WebsiteSlug =>
    let r := json.storeString v cur.WebsiteSlug
    ({ cur with WebsiteSlug := r.1 }, r.2)
  | .Rank =>
    let r := json.storeInt64 v cur.Rank
    ({ cur with Rank := r.1 }, r.2)
  | .CirculatingSupply =>
    let r := json.storeFloat64 ParseFloat v cur.CirculatingSupply
    ({ cur with CirculatingSupply := r.1 }, r.2)
  | .TotalSupply =>
    let r := json.storeFloat64 ParseFloat v cur.TotalSupply
    ({ cur with TotalSupply := r.1 }, r.2)
  | .MaxSupply =>
    let r := json.storeFloat64 ParseFloat v cur.MaxSupply
    ({ cur with MaxSupply := r.1 }, r.2)
  | .Quotes =>
    let r := json.storeMap (Quote.store ParseFloat) Quote.zero v cur.Quotes
    ({ cur with Quotes := r.1 }, r.2)
  | .LastUpdated =>
    let r := json.storeInt64 v cur.LastUpdated
    ({ cur with LastUpdated := r.1 }, r.2)

/-- Storing a JSON value into a `Ticker`. -/
def Ticker.store (ParseFloat : String → Option Float64) (v : JSON) (cur : Ticker) :
    Ticker × Option GoError :=
  json.storeStruct Ticker.fields Ticker.Field.tag (Ticker.storeField ParseFloat) v cur

/-- The zero value `GlobalQuote{}`. -/
def GlobalQuote.zero : GlobalQuote := { TotalMarketCap := ⟨0⟩, TotalVolume24h := ⟨0⟩ }

/-- The fields of `GlobalQuote`. -/
inductive GlobalQuote.Field where
  | TotalMarketCap
  | TotalVolume24h
deriving DecidableEq, Repr

/-- The `json:"..."` tags of `GlobalQuote` (lines 75-76). -/
def GlobalQuote.Field.tag : GlobalQuote.Field → String
  | .TotalMarketCap => "total_market_cap"
  | .TotalVolume24h => "total_volume_24h"

def GlobalQuote.fields : List GlobalQuote.Field := [.TotalMarketCap, .TotalVolume24h]

/-- Storing a JSON value into one field of a `GlobalQuote`. -/
def GlobalQuote.storeField (ParseFloat : String → Option Float64) (f : GlobalQuote.Field)
    (v : JSON) (cur : GlobalQuote) : GlobalQuote × Option GoError :=
  match f with
  | .TotalMarketCap =>
    let r := json.storeFloat64 ParseFloat v cur.TotalMarketCap
    ({ cur with TotalMarketCap := r.1 }, r.2)
  | .TotalVolume24h =>
    let r := json.storeFloat64 ParseFloat v cur.TotalVolume24h
    ({ cur with TotalVolume24h := r.1 }, r.2)

/-- Storing a JSON value into a `GlobalQuote`. -/
def GlobalQuote.store (ParseFloat : String → Option Float64) (v : JSON) (cur : GlobalQuote) :
    GlobalQuote × Option GoError :=
  json.storeStruct GlobalQuote.fields GlobalQuote.Field.tag (GlobalQuote.storeField ParseFloat)
    v cur

/-- The fields of `GlobalData`. -/
inductive GlobalData.Field where
  | ActiveCryptoCurrencies
  | ActiveMarkets
  | BitcoinPercentageOfMarketCap
  | Quotes
  | LastUpdatedAt
deriving DecidableEq, Repr

/-- The `json:"..."` tags of `GlobalData` (lines 67-71). -/
def GlobalData.Field.tag : GlobalData.Field → String
  | .ActiveCryptoCurrencies => "active_cryptocurrencies"
  | .ActiveMarkets => "active_markets"
  | .BitcoinPercentageOfMarketCap => "bitcoin_percentage_of_market_cap"
  | .Quotes => "quotes"
  | .LastUpdatedAt => "last_updated_at"

def GlobalData.fields : List GlobalData.Field :=
  [.ActiveCryptoCurrencies, .ActiveMarkets, .BitcoinPercentageOfMarketCap, .Quotes,
   .LastUpdatedAt]

/-- Storing a JSON value into one field of a `GlobalData`. -/
def GlobalData.storeField (ParseFloat : String → Option Float64) (f : GlobalData.Field)
    (v : JSON) (cur : GlobalData) : GlobalData × Option GoError :=
  match f with
  | .ActiveCryptoCurrencies =>
    let r := json.storeInt64 v cur.ActiveCryptoCurrencies
    ({ cur with ActiveCryptoCurrencies := r.1 }, r.2)
  | .ActiveMarkets =>
    let r := json.storeInt64 v cur.ActiveMarkets
    ({ cur with ActiveMarkets := r.1 }, r.2)
  | .BitcoinPercentageOfMarketCap =>
    let r := json.storeFloat64 ParseFloat v cur.BitcoinPercentageOfMarketCap
    ({ cur with BitcoinPercentageOfMarketCap := r.1 }, r.2)
  | .Quotes =>
    let r := json.storeMap (GlobalQuote.store ParseFloat) GlobalQuote.zero v cur.Quotes
    ({ cur with Quotes := r.1 }, r.2)
  | .LastUpdatedAt =>
    let r := json.storeInt64 v cur.LastUpdatedAt
    ({ cur with LastUpdatedAt := r.1 }, r.2)

/-- Storing a JSON value into a `GlobalData`. -/
def GlobalData.store (ParseFloat : String → Option Float64) (v : JSON) (cur : GlobalData) :
    GlobalData × Option GoError :=
  json.storeStruct GlobalData.fields GlobalData.Field.tag (GlobalData.storeField ParseFloat)
    v cur

/-- The payload stores of `env` are those of `encoding/json`, with `ParseFloat`
for `strconv.ParseFloat`. -/
def Env.usesEncodingJSON (env : Env) (ParseFloat : String → Option Float64) : Prop :=
  env.storeListings = json.storeSlice Listing.store Listing.zero ∧
  env.storeTickers = json.storeMap (Ticker.store ParseFloat) Ticker.zero ∧
  env.storeTicker = Ticker.store ParseFloat ∧
  env.storeGlobalData = GlobalData.store ParseFloat

/-! ## The four operations (lines 84-205) -/

/-- The client every operation builds: `&http.Client{Timeout: 10 * time.Second}`. -/
def newClient : Client := { Timeout := 10 * time.Second }

/-- The URL built by `GetListings` (line 85). -/
def GetListings.url : String := ApiURLV2 ++ ApiListings

/-- The function `GetListings` (lines 84-109). -/
def GetListings (env : Env) : Outcome (Slice Listing) :=
  let url := GetListings.url
  match http.NewRequest env "GET" url with
  | .error err => ⟨none, some err, []⟩
  | .ok req =>
    let c := newClient
    let req := req.addHeader "Content-Type" "application/json"
    let req := req.addHeader "Accept" "application/json"
    match env.Do c req with
    | .error err => ⟨none, some err, [.send c req]⟩
    | .ok resp =>
      if resp.StatusCode ≠ http.StatusOK then
        ⟨none, some (errors.New ("something went wrong with listings API and the response code is "
          ++ fmtInt resp.StatusCode)), [.send c req]⟩
      else
        let respBody := (json.Decode (ListingsResponse.store env) resp.Body ListingsResponse.zero).1
        -- from here on `defer resp.Body.Close()` is registered: it runs at the return
        if respBody.MetaData.Error ≠ "" then
          ⟨none, some (errors.New respBody.MetaData.Error), [.send c req, .decode, .close]⟩
        else
          ⟨respBody.Data, none, [.send c req, .decode, .close]⟩

/-- The URL built by `GetTicks` (lines 112-121). -/
def GetTicks.url (start limit : Int) (convert : String) : String :=
  let url := ApiURLV2 ++ ApiTicker
  let url := if start ≠ 0 then url ++ ("?start=" ++ fmtInt start) else url
  let url := if limit ≠ 0 then url ++ ("?limit=" ++ fmtInt limit) else url
  let url := if convert ≠ "" then url ++ ("?convert=" ++ convert) else url
  url

/-- The function `GetTicks` (lines 111-145). -/
def GetTicks (env : Env) (start limit : Int) (convert : String) : Outcome (GoMap Ticker) :=
  let url := GetTicks.url start limit convert
  let c := newClient
  match http.NewRequest env "GET" url with
  | .error err => ⟨none, some err, []⟩
  | .ok req =>
    let req := req.addHeader "Content-Type" "application/json"
    let req := req.addHeader "Accept" "application/json"
    match env.Do c req with
    | .error err => ⟨none, some err, [.send c req]⟩
    | .ok resp =>
      if resp.StatusCode ≠ http.StatusOK then
        ⟨none, some (errors.New ("something went wrong with ticker API and the response code is "
          ++ fmtInt resp.StatusCode)), [.send c req]⟩
      else
        let respBody := (json.Decode (TickersResponse.store env) resp.Body TickersResponse.zero).1
        if respBody.MetaData.Error ≠ "" then
          ⟨none, some (errors.New respBody.MetaData.Error), [.send c req, .decode, .close]⟩
        else
          ⟨respBody.Data, none, [.send c req, .decode, .close]⟩

/-- The URL built by `GetTick` (line 151). -/
def GetTick.url (id : Int) : String := ApiURLV2 ++ ApiTicker ++ fmtInt id ++ "/"

/-- The function `GetTick` (lines 147-175). -/
def GetTick (env : Env) (id : Int) : Outcome Ticker :=
  if id ≤ 0 then
    ⟨Ticker.zero, some (errors.New "id is required"), []⟩
  else
    let url := GetTick.url id
    let c := newClient
    match http.NewRequest env "GET" url with
    | .error err => ⟨Ticker.zero, some err, []⟩
    | .ok req =>
      let req := req.addHeader "Content-Type" "application/json"
      let req := req.addHeader "Accept" "application/json"
      match env.Do c req with
      | .error err => ⟨Ticker.zero, some err, [.send c req]⟩
      | .ok resp =>
        if resp.StatusCode ≠ http.StatusOK then
          ⟨Ticker.zero, some (errors.New
            ("something went wrong with ticker/(id) API and the response code is "
              ++ fmtInt resp.StatusCode)), [.send c req]⟩
        else
          let respBody := (json.Decode (TickerResponse.store env) resp.Body TickerResponse.zero).1
          if respBody.MetaData.Error ≠ "" then
            ⟨Ticker.zero, some (errors.New respBody.MetaData.Error), [.send c req, .decode, .close]⟩
          else
            ⟨respBody.Data, none, [.send c req, .decode, .close]⟩

/-- The URL built by `GetGlobalData` (lines 178-181). -/
def GetGlobalData.url (convert : String) : String :=
  let url := ApiURLV2 ++ ApiGlobal
  if convert ≠ "" then url ++ "?convert=" ++ convert else url

/-- The function `GetGlobalData` (lines 177-205). -/
def GetGlobalData (env : Env) (convert : String) : Outcome GlobalData :=
  let url := GetGlobalData.url convert
  let c := newClient
  match http.NewRequest env "GET" url with
  | .error err => ⟨GlobalData.zero, some err, []⟩
  | .ok req =>
    let req := req.addHeader "Content-Type" "application/json"
    let req := req.addHeader "Accept" "application/json"
    match env.Do c req with
    | .error err => ⟨GlobalData.zero, some err, [.send c req]⟩
    | .ok resp =>
      if resp.StatusCode ≠ http.StatusOK then
        ⟨GlobalData.zero, some (errors.New
          ("something went wrong with global data API and the response code is "
            ++ fmtInt resp.StatusCode)), [.send c req]⟩
      else
        let respBody :=
          (json.Decode (GlobalDataResponse.store env) resp.Body GlobalDataResponse.zero).1
        if respBody.MetaData.Error ≠ "" then
          ⟨GlobalData.zero, some (errors.New respBody.MetaData.Error),
            [.send c req, .decode, .close]⟩
        else
          ⟨respBody.Data, none, [.send c req, .decode, .close]⟩

/-! ## Vocabulary of the statements -/

/-- The request an operation hands to the transport for `url`: a GET carrying
the two headers the operations add. -/
def requestFor (url : String) : Request :=
  { Method := "GET", URL := url,
    Header := [("Content-Type", "application/json"), ("Accept", "application/json")] }

/-- In `env`, the call for `url` reaches the transport (`http.NewRequest` accepts
the URL) and the transport's outcome is `r`. -/
def Env.answers (env : Env) (url : String) (r : Except GoError Response) : Prop :=
  env.urlError url = none ∧ env.Do newClient (requestFor url) = r

/-- The values of the members of a JSON object whose name addresses the struct
field tagged `tag`, that is, equals `tag` up to case. -/
def JSON.fieldValues (tag : String) (ms : List (String × JSON)) : List JSON :=
  (ms.filter fun kv => json.foldName kv.1 == json.foldName tag).map fun kv => kv.2

/-- The environment `env` with a transport that accepts every URL and answers
every request with `r`. -/
def Env.serving (env : Env) (r : Except GoError Response) : Env :=
  { env with urlError := fun _ => none, Do := fun _ _ => r }

/-- The requests of the trace `t` go to `url` and nowhere else: exactly one
request, to `url`, when `http.NewRequest` accepts `url`, and none when it rejects it. -/
def Env.requests (env : Env) (url : String) (t : List Event) : Prop :=
  requestedURLs t = if env.urlError url = none then [url] else []

/-- The value of a list of decimal digits read from the left, continuing from `acc`. -/
def digitsValue (acc : Nat) (ds : List Char) : Nat :=
  ds.foldl (fun a c => 10 * a + (c.toNat - 48)) acc

/-- The integer a decimal numeral denotes. -/
def decimalValue (s : String) : Int :=
  match s.toList with
  | '-' :: ds => -(digitsValue 0 ds : Int)
  | ds => (digitsValue 0 ds : Int)

/-- The number of question marks in a URL. -/
def questionMarks (url : String) : Nat := url.toList.count '?'

/-- Splitting a list of characters at every occurrence of `sep`. -/
def splitAtChar (sep : Char) : List Char → List (List Char)
  | [] => [[]]
  | c :: cs =>
    match splitAtChar sep cs with
    | [] => [[c]]
    | w :: ws => if c = sep then [] :: w :: ws else (c :: w) :: ws

/-- The key/value pairs a standard URL parser reads from a URL without percent
escapes, plus signs or fragment: the query is what follows the first question
mark, its non-empty pieces between ampersands are the pairs, and a pair is cut
into key and value at its first equals sign. -/
def queryPairs (url : String) : List (String × String) :=
  let query := (url.toList.dropWhile fun c => c ≠ '?').drop 1
  ((splitAtChar '&' query).filter fun p => p ≠ []).map fun p =>
    (String.mk (p.takeWhile fun c => c ≠ '='), String.mk ((p.dropWhile fun c => c ≠ '=').drop 1))

/-! ## Sample data -/

namespace Sample

/-- The function `strconv.ParseFloat` on the number literals of the samples,
each value given by its IEEE-754 bit pattern; every other literal is refused. -/
def ParseFloat (lit : String) : Option Float64 :=
  if lit = "17010775.0" then some ⟨0x4170390570000000⟩
  else if lit = "21000000.0" then some ⟨0x417406F400000000⟩
  else if lit = "56251212.0" then some ⟨0x418AD29A60000000⟩
  else if lit = "84000000.0" then some ⟨0x419406F400000000⟩
  else if lit = "9024.5" then some ⟨0x40C1A04000000000⟩
  else if lit = "148.25" then some ⟨0x4062880000000000⟩
  else if lit = "8765400000.0" then some ⟨0x420053AB1E000000⟩
  else if lit = "153506000000.0" then some ⟨0x4241DED5D6400000⟩
  else if lit = "430511000000.0" then some ⟨0x42590F1D22700000⟩
  else if lit = "25716300000.0" then some ⟨0x4217F33E63800000⟩
  else if lit = "37.5" then some ⟨0x4042C00000000000⟩
  else if lit = "0.5" then some ⟨0x3FE0000000000000⟩
  else if lit = "-2.25" then some ⟨0xC002000000000000⟩
  else if lit = "1.75" then some ⟨0x3FFC000000000000⟩
  else none

def bitcoinListing : Listing := { Id := 1, Name := "Bitcoin", Symbol := "BTC", WebsiteSlug := "bitcoin" }

def litecoinListing : Listing := { Id := 2, Name := "Litecoin", Symbol := "LTC", WebsiteSlug := "litecoin" }

/-- The quote of bitcoin in USD: 9024.5, 8765400000, 153506000000, 0.5, -2.25, 1.75. -/
def bitcoinUSD : Quote :=
  { Price := ⟨0x40C1A04000000000⟩, Volume24h := ⟨0x420053AB1E000000⟩,
    MarketCap := ⟨0x4241DED5D6400000⟩, PriceChange1h := ⟨0x3FE0000000000000⟩,
    PriceChange24h := ⟨0xC002000000000000⟩, PriceChange7d := ⟨0x3FFC000000000000⟩ }

def bitcoin : Ticker :=
  { Id := 1, Name := "Bitcoin", Symbol := "BTC", WebsiteSlug := "bitcoin", Rank := 1,
    CirculatingSupply := ⟨0x4170390570000000⟩, TotalSupply := ⟨0x4170390570000000⟩,
    MaxSupply := ⟨0x417406F400000000⟩, Quotes := some [("USD", bitcoinUSD)],
    LastUpdated := 1525137271 }

/-- A ticker without `max_supply` and without quotes. -/
def litecoin : Ticker :=
  { Ticker.zero with Id := 2, Name := "Litecoin", Symbol := "LTC", WebsiteSlug := "litecoin",
                     Rank := 5, CirculatingSupply := ⟨0x418AD29A60000000⟩,
                     TotalSupply := ⟨0x418AD29A60000000⟩, LastUpdated := 1525137241 }

def globalData : GlobalData :=
  { ActiveCryptoCurrencies := 1594, ActiveMarkets := 10526,
    BitcoinPercentageOfMarketCap := ⟨0x4042C00000000000⟩,
    Quotes := some [("USD", { TotalMarketCap := ⟨0x42590F1D22700000⟩,
                              TotalVolume24h := ⟨0x4217F33E63800000⟩ })],
    LastUpdatedAt := 1525137271 }

/-- The JSON of `bitcoinListing`. -/
def bitcoinListingJSON : JSON :=
  .obj [("id", .num "1"), ("name", .str "Bitcoin"), ("symbol", .str "BTC"),
        ("website_slug", .str "bitcoin")]

/-- The JSON of `litecoinListing`. -/
def litecoinListingJSON : JSON :=
  .obj [("id", .num "2"), ("name", .str "Litecoin"), ("symbol", .str "LTC"),
        ("website_slug", .str "litecoin")]

/-- The JSON of the listing sequence litecoin, bitcoin. -/
def listingsJSON : JSON := .arr [litecoinListingJSON, bitcoinListingJSON]

/-- The JSON of `bitcoin`. -/
def bitcoinJSON : JSON :=
  .obj [("id", .num "1"), ("name", .str "Bitcoin"), ("symbol", .str "BTC"),
        ("website_slug", .str "bitcoin"), ("rank", .num "1"),
        ("circulating_supply", .num "17010775.0"), ("total_supply", .num "17010775.0"),
        ("max_supply", .num "21000000.0"),
        ("quotes", .obj [("USD", .obj [("price", .num "9024.5"),
          ("volume_24h", .num "8765400000.0"), ("market_cap", .num "153506000000.0"),
          ("price_change_1h", .num "0.5"), ("price_change_24h", .num "-2.25"),
          ("price_change_7d", .num "1.75")])]),
        ("last_updated", .num "1525137271")]

/-- The JSON of `litecoin`. -/
def litecoinJSON : JSON :=
  .obj [("id", .num "2"), ("name", .str "Litecoin"), ("symbol", .str "LTC"),
        ("website_slug", .str "litecoin"), ("rank", .num "5"),
        ("circulating_supply", .num "56251212.0"), ("total_supply", .num "56251212.0"),
        ("max_supply", .null), ("last_updated", .num "1525137241")]

/-- The JSON of the ticker map with `litecoin` under the key 2 and `bitcoin`
under the key 1. -/
def tickersJSON : JSON := .obj [("2", litecoinJSON), ("1", bitcoinJSON)]

/-- The JSON of `globalData`. -/
def globalDataJSON : JSON :=
  .obj [("active_cryptocurrencies", .num "1594"), ("active_markets", .num "10526"),
        ("bitcoin_percentage_of_market_cap", .num "37.5"),
        ("quotes", .obj [("USD", .obj [("total_market_cap", .num "430511000000.0"),
          ("total_volume_24h", .num "25716300000.0")])]),
        ("last_updated_at", .num "1525137271")]

/-- The library `encoding/json`, with `ParseFloat` on the sample literals, a
`http.NewRequest` that accepts every URL, and a transport that refuses every
connection. -/
def env : Env :=
  { urlError := fun _ => none
    Do := fun _ _ => .error ⟨"dial tcp: connection refused"⟩
    storeListings := json.storeSlice Listing.store Listing.zero
    storeTickers := json.storeMap (Ticker.store ParseFloat) Ticker.zero
    storeTicker := Ticker.store ParseFloat
    storeGlobalData := GlobalData.store ParseFloat }

/-- The members of a `metadata` object with the given `error` member. -/
def metaMembers (error : JSON) : List (String × JSON) :=
  [("timestamp", .num "1525137187"), ("error", error)]

/-- The members of an envelope with the given payload and `error` member,
the metadata under the key `metadata`. -/
def envelopeMembers (data error : JSON) : List (String × JSON) :=
  [("data", data), ("metadata", .obj (metaMembers error))]

/-- An envelope as the server sends it. -/
def envelope (data error : JSON) : JSON := .obj (envelopeMembers data error)

/-- A body that is not JSON, with the error the decoder reports on it. -/
def garbage : Body := .invalid ⟨"invalid character '<' looking for beginning of value"⟩

end Sample

/-! ## Lemmas on the shared shape of the operations -/

theorem newRequest_accepts (env : Env) (url : String) (hu : env.urlError url = none) :
    http.NewRequest env "GET" url = .ok { Method := "GET", URL := url, Header := [] } := by
  simp [http.NewRequest, hu]

theorem newRequest_rejects (env : Env) (url : String) (err : GoError)
    (hu : env.urlError url = some err) :
    http.NewRequest env "GET" url = .error err := by
  simp [http.NewRequest, hu]

theorem addHeaders_eq (url : String) :
    (Request.addHeader (Request.addHeader { Method := "GET", URL := url, Header := [] }
      "Content-Type" "application/json") "Accept" "application/json") = requestFor url := rfl

/-! ## Lemmas on the envelope decoder -/

theorem findField_sound {F : Type} (fields : List F) (tag : F → String) (key : String) (f : F)
    (h : json.findField fields tag key = some f) :
    json.foldName (tag f) = json.foldName key := by
  unfold json.findField at h
  split at h
  · rename_i g hg
    have := List.find?_some hg
    simp only [beq_iff_eq] at this
    cases h
    rw [this]
  · have := List.find?_some h
    simpa using this

theorem findField_meta_error (key : String)
    (h : json.foldName key = json.foldName "error") :
    json.findField MetaData.fields MetaData.Field.tag key = some .Error := by
  have b1 : ("timestamp" == key) = false := by
    rw [beq_eq_false_iff_ne]
    rintro rfl
    exact absurd h (by decide)
  have b2 : ("num_cryptocurrencies" == key) = false := by
    rw [beq_eq_false_iff_ne]
    rintro rfl
    exact absurd h (by decide)
  have f1 : (json.foldName "timestamp" == json.foldName key) = false := by
    rw [h]
    decide
  have f2 : (json.foldName "num_cryptocurrencies" == json.foldName key) = false := by
    rw [h]
    decide
  have f3 : (json.foldName "error" == json.foldName key) = true := by
    rw [h]
    decide
  cases b3 : ("error" == key) <;>
    simp only [json.findField, MetaData.fields, MetaData.Field.tag, List.find?, b1, b2, b3, f1, f2, f3]

theorem fieldValues_cons_pos (tag key : String) (v : JSON) (rest : List (String × JSON))
    (h : json.foldName key = json.foldName tag) :
    JSON.fieldValues tag ((key, v) :: rest) = v :: JSON.fieldValues tag rest := by
  unfold JSON.fieldValues
  rw [List.filter_cons_of_pos (by simpa using h)]
  rfl

theorem fieldValues_cons_neg (tag key : String) (v : JSON) (rest : List (String × JSON))
    (h : json.foldName key ≠ json.foldName tag) :
    JSON.fieldValues tag ((key, v) :: rest) = JSON.fieldValues tag rest := by
  unfold JSON.fieldValues
  rw [List.filter_cons_of_neg (by simpa using h)]

theorem storeMember_error_unchanged (key : String) (v : JSON) (cur : MetaData)
    (h : json.foldName key ≠ json.foldName "error") :
    (MetaData.storeMember key v cur).1.Error = cur.Error := by
  unfold MetaData.storeMember
  split
  · rfl
  · rfl
  · rename_i hf
    exact absurd (findField_sound _ _ _ _ hf).symm h
  · rfl

theorem storeMember_error_str (key m : String) (cur : MetaData)
    (h : json.foldName key = json.foldName "error") :
    (MetaData.storeMember key (.str m) cur).1.Error = m := by
  simp [MetaData.storeMember, findField_meta_error key h, json.storeString]

theorem storeMembers_error_unchanged (mds : List (String × JSON)) (cur : MetaData)
    (h : JSON.fieldValues "error" mds = []) :
    (MetaData.storeMembers mds cur).1.Error = cur.Error := by
  induction mds generalizing cur with
  | nil => rfl
  | cons kv rest ih =>
    obtain ⟨key, v⟩ := kv
    by_cases hk : json.foldName key = json.foldName "error"
    · simp [fieldValues_cons_pos _ _ _ _ hk] at h
    · have hrest : JSON.fieldValues "error" rest = [] := by
        simpa [fieldValues_cons_neg _ _ _ _ hk] using h
      simp only [MetaData.storeMembers]
      rw [ih _ hrest, storeMember_error_unchanged key v cur hk]

theorem storeMembers_error_sole (mds : List (String × JSON)) (cur : MetaData) (m : String)
    (h : JSON.fieldValues "error" mds = [.str m]) :
    (MetaData.storeMembers mds cur).1.Error = m := by
  induction mds generalizing cur with
  | nil => simp [JSON.fieldValues] at h
  | cons kv rest ih =>
    obtain ⟨key, v⟩ := kv
    by_cases hk : json.foldName key = json.foldName "error"
    · have h2 : v = .str m ∧ JSON.fieldValues "error" rest = [] := by
        simpa [fieldValues_cons_pos _ _ _ _ hk] using h
      obtain ⟨rfl, hrest⟩ := h2
      simp only [MetaData.storeMembers]
      rw [storeMembers_error_unchanged rest _ hrest, storeMember_error_str key m cur hk]
    · have hrest : JSON.fieldValues "error" rest = [.str m] := by
        simpa [fieldValues_cons_neg _ _ _ _ hk] using h
      simp only [MetaData.storeMembers]
      exact ih _ hrest

theorem findField_envelope_meta (key : String)
    (h : json.foldName key = json.foldName "metadata") :
    json.findField [EnvelopeField.Data, EnvelopeField.MetaData] (EnvelopeField.tag "metadata") key
      = some .MetaData := by
  have b1 : ("data" == key) = false := by
    rw [beq_eq_false_iff_ne]
    rintro rfl
    exact absurd h (by decide)
  have f1 : (json.foldName "data" == json.foldName key) = false := by
    rw [h]
    decide
  have f2 : (json.foldName "metadata" == json.foldName key) = true := by
    rw [h]
    decide
  cases b3 : ("metadata" == key) <;>
    simp only [json.findField, EnvelopeField.tag, List.find?, b1, b3, f1, f2]

theorem storeEnvelopeMember_meta_unchanged {D : Type} (metaTag : String)
    (storeData : JSON → D → D × Option GoError) (key : String) (v : JSON) (cur : D × MetaData)
    (h : json.foldName key ≠ json.foldName metaTag) :
    (json.storeEnvelopeMember metaTag storeData key v cur).1.2 = cur.2 := by
  unfold json.storeEnvelopeMember
  split
  · rfl
  · rename_i hf
    exact absurd (findField_sound _ _ _ _ hf).symm h
  · rfl

theorem storeEnvelopeMember_meta {D : Type}
    (storeData : JSON → D → D × Option GoError) (key : String) (v : JSON) (cur : D × MetaData)
    (h : json.foldName key = json.foldName "metadata") :
    (json.storeEnvelopeMember "metadata" storeData key v cur).1.2 = (MetaData.store v cur.2).1 := by
  simp [json.storeEnvelopeMember, findField_envelope_meta key h]

theorem storeEnvelopeMembers_meta_unchanged {D : Type} (metaTag : String)
    (storeData : JSON → D → D × Option GoError) (ms : List (String × JSON)) (cur : D × MetaData)
    (h : JSON.fieldValues metaTag ms = []) :
    (json.storeEnvelopeMembers metaTag storeData ms cur).1.2 = cur.2 := by
  induction ms generalizing cur with
  | nil => rfl
  | cons kv rest ih =>
    obtain ⟨key, v⟩ := kv
    by_cases hk : json.foldName key = json.foldName metaTag
    · simp [fieldValues_cons_pos _ _ _ _ hk] at h
    · have hrest : JSON.fieldValues metaTag rest = [] := by
        simpa [fieldValues_cons_neg _ _ _ _ hk] using h
      simp only [json.storeEnvelopeMembers]
      rw [ih _ hrest, storeEnvelopeMember_meta_unchanged metaTag storeData key v cur hk]

theorem storeEnvelopeMembers_meta_sole {D : Type}
    (storeData : JSON → D → D × Option GoError) (ms : List (String × JSON)) (cur : D × MetaData)
    (w : JSON) (h : JSON.fieldValues "metadata" ms = [w]) :
    (json.storeEnvelopeMembers "metadata" storeData ms cur).1.2 = (MetaData.store w cur.2).1 := by
  induction ms generalizing cur with
  | nil => simp [JSON.fieldValues] at h
  | cons kv rest ih =>
    obtain ⟨key, v⟩ := kv
    by_cases hk : json.foldName key = json.foldName "metadata"
    · have h2 : v = w ∧ JSON.fieldValues "metadata" rest = [] := by
        simpa [fieldValues_cons_pos _ _ _ _ hk] using h
      obtain ⟨rfl, hrest⟩ := h2
      simp only [json.storeEnvelopeMembers]
      rw [storeEnvelopeMembers_meta_unchanged "metadata" storeData rest _ hrest,
        storeEnvelopeMember_meta storeData key v cur hk]
    · have hrest : JSON.fieldValues "metadata" rest = [w] := by
        simpa [fieldValues_cons_neg _ _ _ _ hk] using h
      simp only [json.storeEnvelopeMembers]
      rw [ih _ hrest, storeEnvelopeMember_meta_unchanged "metadata" storeData key v cur hk]

/-- The embedded error an envelope tagged `metadata` ends with, when the body is
an object with one member named `metadata`, an object with one member named
`error`, a string. -/
theorem storeEnvelope_error {D : Type} (storeData : JSON → D → D × Option GoError)
    (ms mds : List (String × JSON)) (m : String) (cur : D × MetaData)
    (hmeta : JSON.fieldValues "metadata" ms = [.obj mds])
    (herr : JSON.fieldValues "error" mds = [.str m]) :
    (json.storeEnvelope "metadata" storeData (.obj ms) cur).1.2.Error = m := by
  simp only [json.storeEnvelope]
  rw [storeEnvelopeMembers_meta_sole storeData ms cur _ hmeta]
  simp only [MetaData.store]
  exact storeMembers_error_sole mds _ m herr

theorem ListingsResponse_decoded_error (env : Env) (ms mds : List (String × JSON)) (m : String)
    (hmeta : JSON.fieldValues "metadata" ms = [.obj mds])
    (herr : JSON.fieldValues "error" mds = [.str m]) :
    (json.Decode (ListingsResponse.store env) (.value (.obj ms))
      ListingsResponse.zero).1.MetaData.Error = m :=
  storeEnvelope_error env.storeListings ms mds m _ hmeta herr

theorem TickersResponse_decoded_error (env : Env) (ms mds : List (String × JSON)) (m : String)
    (hmeta : JSON.fieldValues "metadata" ms = [.obj mds])
    (herr : JSON.fieldValues "error" mds = [.str m]) :
    (json.Decode (TickersResponse.store env) (.value (.obj ms))
      TickersResponse.zero).1.MetaData.Error = m :=
  storeEnvelope_error env.storeTickers ms mds m _ hmeta herr

theorem TickerResponse_decoded_error (env : Env) (ms mds : List (String × JSON)) (m : String)
    (hmeta : JSON.fieldValues "metadata" ms = [.obj mds])
    (herr : JSON.fieldValues "error" mds = [.str m]) :
    (json.Decode (TickerResponse.store env) (.value (.obj ms))
      TickerResponse.zero).1.MetaData.Error = m :=
  storeEnvelope_error env.storeTicker ms mds m _ hmeta herr

/-- A `GlobalDataResponse` keeps an empty embedded error on every JSON object
without a member named `meta_data`. -/
theorem GlobalDataResponse_decoded_error (env : Env) (ms : List (String × JSON))
    (h : JSON.fieldValues "meta_data" ms = []) :
    (json.Decode (GlobalDataResponse.store env) (.value (.obj ms))
      GlobalDataResponse.zero).1.MetaData.Error = "" := by
  show (json.storeEnvelopeMembers "meta_data" env.storeGlobalData ms
    (GlobalData.zero, MetaData.zero)).1.2.Error = ""
  rw [storeEnvelopeMembers_meta_unchanged "meta_data" env.storeGlobalData ms _ h]
  rfl

/-! ## Lemmas on the payload of the envelope -/

theorem findField_envelope_data (metaTag key : String)
    (h : json.foldName key = json.foldName "data")
    (hne : json.foldName metaTag ≠ json.foldName "data") :
    json.findField [EnvelopeField.Data, EnvelopeField.MetaData] (EnvelopeField.tag metaTag) key
      = some .Data := by
  have f1 : (json.foldName "data" == json.foldName key) = true := by
    rw [h]
    decide
  have b2 : (metaTag == key) = false := by
    rw [beq_eq_false_iff_ne]
    rintro rfl
    exact hne h
  cases b1 : ("data" == key) <;>
    simp only [json.findField, EnvelopeField.tag, List.find?, b1, b2, f1]

theorem storeEnvelopeMember_data_unchanged {D : Type} (metaTag : String)
    (storeData : JSON → D → D × Option GoError) (key : String) (v : JSON) (cur : D × MetaData)
    (h : json.foldName key ≠ json.foldName "data") :
    (json.storeEnvelopeMember metaTag storeData key v cur).1.1 = cur.1 := by
  unfold json.storeEnvelopeMember
  split
  · rename_i hf
    exact absurd (findField_sound _ _ _ _ hf).symm h
  · rfl
  · rfl

theorem storeEnvelopeMember_data {D : Type} (metaTag : String)
    (storeData : JSON → D → D × Option GoError) (key : String) (v : JSON) (cur : D × MetaData)
    (h : json.foldName key = json.foldName "data")
    (hne : json.foldName metaTag ≠ json.foldName "data") :
    (json.storeEnvelopeMember metaTag storeData key v cur).1.1 = (storeData v cur.1).1 := by
  simp [json.storeEnvelopeMember, findField_envelope_data metaTag key h hne]

theorem storeEnvelopeMembers_data_unchanged {D : Type} (metaTag : String)
    (storeData : JSON → D → D × Option GoError) (ms : List (String × JSON)) (cur : D × MetaData)
    (h : JSON.fieldValues "data" ms = []) :
    (json.storeEnvelopeMembers metaTag storeData ms cur).1.1 = cur.1 := by
  induction ms generalizing cur with
  | nil => rfl
  | cons kv rest ih =>
    obtain ⟨key, v⟩ := kv
    by_cases hk : json.foldName key = json.foldName "data"
    · simp [fieldValues_cons_pos _ _ _ _ hk] at h
    · have hrest : JSON.fieldValues "data" rest = [] := by
        simpa [fieldValues_cons_neg _ _ _ _ hk] using h
      simp only [json.storeEnvelopeMembers]
      rw [ih _ hrest, storeEnvelopeMember_data_unchanged metaTag storeData key v cur hk]

/-- The payload an envelope ends with, when the body has one member named
`data`: what the payload store makes of that member's value. -/
theorem storeEnvelopeMembers_data_sole {D : Type} (metaTag : String)
    (storeData : JSON → D → D × Option GoError) (ms : List (String × JSON)) (cur : D × MetaData)
    (d : JSON) (hne : json.foldName metaTag ≠ json.foldName "data")
    (h : JSON.fieldValues "data" ms = [d]) :
    (json.storeEnvelopeMembers metaTag storeData ms cur).1.1 = (storeData d cur.1).1 := by
  induction ms generalizing cur with
  | nil => simp [JSON.fieldValues] at h
  | cons kv rest ih =>
    obtain ⟨key, v⟩ := kv
    by_cases hk : json.foldName key = json.foldName "data"
    · have h2 : v = d ∧ JSON.fieldValues "data" rest = [] := by
        simpa [fieldValues_cons_pos _ _ _ _ hk] using h
      obtain ⟨rfl, hrest⟩ := h2
      simp only [json.storeEnvelopeMembers]
      rw [storeEnvelopeMembers_data_unchanged metaTag storeData rest _ hrest,
        storeEnvelopeMember_data metaTag storeData key v cur hk hne]
    · have hrest : JSON.fieldValues "data" rest = [d] := by
        simpa [fieldValues_cons_neg _ _ _ _ hk] using h
      simp only [json.storeEnvelopeMembers]
      rw [ih _ hrest, storeEnvelopeMember_data_unchanged metaTag storeData key v cur hk]

/-- An array stored into a nil slice: the elements, each stored into a zero
value, in the order of the array. -/
theorem storeElements_fresh {α : Type} (storeElem : JSON → α → α × Option GoError) (zero : α)
    (xs : List JSON) :
    (json.storeElements storeElem zero xs []).1 = xs.map fun x => (storeElem x zero).1 := by
  induction xs with
  | nil => rfl
  | cons x rest ih =>
    simp only [json.storeElements, List.headD_nil, List.tail_nil, List.map_cons]
    rw [ih]

theorem setEntry_fresh {α : Type} (key : String) (val : α) (m : List (String × α))
    (h : key ∉ m.map Prod.fst) :
    json.setEntry key val m = m ++ [(key, val)] := by
  induction m with
  | nil => rfl
  | cons kv rest ih =>
    obtain ⟨k, v⟩ := kv
    have hk : ¬ k = key := fun e => h (by simp [e])
    have hrest : key ∉ rest.map Prod.fst := fun e => h (by simp at e ⊢; exact Or.inr e)
    simp only [json.setEntry, hk, ↓reduceIte, ih hrest, List.cons_append]

theorem storeEntries_fresh {α : Type} (storeElem : JSON → α → α × Option GoError) (zero : α)
    (kvs : List (String × JSON)) (m : List (String × α))
    (hnodup : (kvs.map Prod.fst).Nodup)
    (hdisj : ∀ k ∈ kvs.map Prod.fst, k ∉ m.map Prod.fst) :
    (json.storeEntries storeElem zero kvs m).1
      = m ++ kvs.map fun kv => (kv.1, (storeElem kv.2 zero).1) := by
  induction kvs generalizing m with
  | nil => simp [json.storeEntries]
  | cons kv rest ih =>
    obtain ⟨key, v⟩ := kv
    have hkey : key ∉ m.map Prod.fst := hdisj key (by simp)
    have hn : key ∉ rest.map Prod.fst ∧ (rest.map Prod.fst).Nodup := by
      simpa using hnodup
    simp only [json.storeEntries]
    rw [setEntry_fresh key _ m hkey, ih _ hn.2]
    · simp
    · intro k hk
      have hk1 : k ∉ m.map Prod.fst := hdisj k (by simp at hk ⊢; exact Or.inr hk)
      have hk2 : k ≠ key := fun e => hn.1 (e ▸ hk)
      simp only [List.map_append, List.map_cons, List.map_nil, List.mem_append,
        List.mem_singleton, not_or]
      exact ⟨hk1, hk2⟩

/-- An object with distinct member names stored into a nil map: one entry per
member, under the member's name, the value stored into a zero element. -/
theorem storeMap_fresh {α : Type} (storeElem : JSON → α → α × Option GoError) (zero : α)
    (kvs : List (String × JSON)) (hnodup : (kvs.map Prod.fst).Nodup) :
    (json.storeMap storeElem zero (.obj kvs) none).1
      = some (kvs.map fun kv => (kv.1, (storeElem kv.2 zero).1)) := by
  simp only [json.storeMap, Option.getD_none]
  rw [storeEntries_fresh storeElem zero kvs [] hnodup (by simp)]
  simp

/-- A listing object with its four members, read into a zero `Listing`. -/
theorem Listing_store_object (id name symbol slug : String) (n : Int)
    (hid : strconv.ParseInt id = some n) :
    Listing.store (.obj [("id", .num id), ("name", .str name), ("symbol", .str symbol),
        ("website_slug", .str slug)]) Listing.zero
      = ({ Id := n, Name := name, Symbol := symbol, WebsiteSlug := slug }, none) := by
  have h1 : json.findField Listing.fields Listing.Field.tag "id" = some .Id := by decide
  have h2 : json.findField Listing.fields Listing.Field.tag "name" = some .Name := by decide
  have h3 : json.findField Listing.fields Listing.Field.tag "symbol" = some .Symbol := by decide
  have h4 : json.findField Listing.fields Listing.Field.tag "website_slug" = some .WebsiteSlug := by
    decide
  simp only [Listing.store, json.storeStruct, json.storeFields, h1, h2, h3, h4,
    Listing.storeField, json.storeInt64, hid, json.storeString, json.saveError, Listing.zero]

theorem ListingsResponse_decoded_data (env : Env) (ms : List (String × JSON)) (d : JSON)
    (hdata : JSON.fieldValues "data" ms = [d]) :
    (json.Decode (ListingsResponse.store env) (.value (.obj ms)) ListingsResponse.zero).1.Data
      = (env.storeListings d none).1 :=
  storeEnvelopeMembers_data_sole "metadata" env.storeListings ms _ d (by decide) hdata

theorem TickersResponse_decoded_data (env : Env) (ms : List (String × JSON)) (d : JSON)
    (hdata : JSON.fieldValues "data" ms = [d]) :
    (json.Decode (TickersResponse.store env) (.value (.obj ms)) TickersResponse.zero).1.Data
      = (env.storeTickers d none).1 :=
  storeEnvelopeMembers_data_sole "metadata" env.storeTickers ms _ d (by decide) hdata

theorem TickerResponse_decoded_data (env : Env) (ms : List (String × JSON)) (d : JSON)
    (hdata : JSON.fieldValues "data" ms = [d]) :
    (json.Decode (TickerResponse.store env) (.value (.obj ms)) TickerResponse.zero).1.Data
      = (env.storeTicker d Ticker.zero).1 :=
  storeEnvelopeMembers_data_sole "metadata" env.storeTicker ms _ d (by decide) hdata

theorem GlobalDataResponse_decoded_data (env : Env) (ms : List (String × JSON)) (d : JSON)
    (hdata : JSON.fieldValues "data" ms = [d]) :
    (json.Decode (GlobalDataResponse.store env) (.value (.obj ms)) GlobalDataResponse.zero).1.Data
      = (env.storeGlobalData d GlobalData.zero).1 :=
  storeEnvelopeMembers_data_sole "meta_data" env.storeGlobalData ms _ d (by decide) hdata

/-! ## Lemmas on the query string of `GetTicks` -/

theorem questionMarks_append (a b : String) :
    questionMarks (a ++ b) = questionMarks a + questionMarks b := by
  simp [questionMarks, String.toList, List.count_append]

/-- Every non-default parameter of `GetTicks` brings its own question mark. -/
theorem GetTicks_url_questionMarks (start limit : Int) (convert : String) :
    (if start ≠ 0 then 1 else 0) + (if limit ≠ 0 then 1 else 0)
      + (if convert ≠ "" then 1 else 0) ≤ questionMarks (GetTicks.url start limit convert) := by
  have h1 : ∀ x : String, questionMarks ("?start=" ++ x) = 1 + questionMarks x := fun x => by
    rw [questionMarks_append]
    rfl
  have h2 : ∀ x : String, questionMarks ("?limit=" ++ x) = 1 + questionMarks x := fun x => by
    rw [questionMarks_append]
    rfl
  have h3 : ∀ x : String, questionMarks ("?convert=" ++ x) = 1 + questionMarks x := fun x => by
    rw [questionMarks_append]
    rfl
  unfold GetTicks.url
  by_cases hs : start = 0 <;> by_cases hl : limit = 0 <;> by_cases hc : convert = "" <;>
    simp [hs, hl, hc, questionMarks_append, h1, h2, h3] <;> omega

/-! ## Lemmas on decimal numerals -/

theorem digitChar_value (d : Nat) (h : d < 10) : (Nat.digitChar d).toNat - 48 = d := by
  interval_cases d <;> rfl

theorem digitChar_ne_minus (d : Nat) (h : d < 10) : Nat.digitChar d ≠ '-' := by
  interval_cases d <;> decide

theorem toDigitsCore_append (fuel : Nat) : ∀ (n : Nat) (ds : List Char),
    Nat.toDigitsCore 10 fuel n ds = Nat.toDigitsCore 10 fuel n [] ++ ds := by
  induction fuel with
  | zero => intro n ds; simp [Nat.toDigitsCore]
  | succ f ih =>
    intro n ds
    simp only [Nat.toDigitsCore]
    split
    · simp
    · rw [ih (n / 10) (_ :: ds), ih (n / 10) [_]]
      simp

theorem toDigitsCore_value (fuel : Nat) : ∀ (n acc : Nat), n < fuel →
    digitsValue acc (Nat.toDigitsCore 10 fuel n []) =
      acc * 10 ^ (Nat.toDigitsCore 10 fuel n []).length + n := by
  induction fuel with
  | zero => intro n acc h; omega
  | succ f ih =>
    intro n acc h
    simp only [Nat.toDigitsCore]
    split
    · rename_i h0
      have hn : n < 10 := by
        by_contra hc
        have : 1 ≤ n / 10 := Nat.div_pos (by omega) (by omega)
        omega
      have hd := digitChar_value n hn
      simp only [digitsValue, Nat.mod_eq_of_lt hn, List.foldl_cons, List.foldl_nil,
        List.length_singleton, pow_one]
      omega
    · rename_i h0
      have hlt : n / 10 < f := by
        have : n / 10 < n := Nat.div_lt_self (by
          by_contra hc
          have : n = 0 := by omega
          simp [this] at h0) (by omega)
        omega
      rw [toDigitsCore_append f (n / 10) [_]]
      have := ih (n / 10) acc hlt
      simp only [digitsValue, List.foldl_append, List.foldl_cons, List.foldl_nil,
        List.length_append, List.length_singleton] at this ⊢
      rw [this, digitChar_value (n % 10) (Nat.mod_lt _ (by omega)), pow_succ]
      have := Nat.div_add_mod n 10
      nlinarith [this]

theorem toDigits_head_ne_minus (fuel : Nat) : ∀ (n : Nat) (c : Char) (cs : List Char),
    Nat.toDigitsCore 10 fuel n [] = c :: cs → fuel ≠ 0 → c ≠ '-' := by
  induction fuel with
  | zero => intro n c cs _ h; exact absurd rfl h
  | succ f ih =>
    intro n c cs h _
    simp only [Nat.toDigitsCore] at h
    split at h
    · simp at h
      rw [← h.1]
      exact digitChar_ne_minus _ (Nat.mod_lt _ (by omega))
    · rw [toDigitsCore_append] at h
      cases f with
      | zero =>
        simp [Nat.toDigitsCore] at h
        rw [← h.1]
        exact digitChar_ne_minus _ (Nat.mod_lt _ (by omega))
      | succ g =>
        cases hx : Nat.toDigitsCore 10 (g + 1) (n / 10) [] with
        | nil =>
          rw [hx] at h
          simp at h
          rw [← h.1]
          exact digitChar_ne_minus _ (Nat.mod_lt _ (by omega))
        | cons d dsl =>
          rw [hx] at h
          simp at h
          rw [← h.1]
          exact ih (n / 10) d dsl hx (by omega)

theorem decimalValue_natRepr (m : Nat) : decimalValue (Nat.repr m) = m := by
  have hv := toDigitsCore_value (m + 1) m 0 (by omega)
  simp only [Nat.zero_mul, Nat.zero_add] at hv
  unfold decimalValue
  simp only [Nat.repr, Nat.toDigits, List.asString, String.toList]
  split
  · rename_i ds heq
    exact absurd rfl (toDigits_head_ne_minus (m + 1) m '-' ds heq (by omega))
  · rw [hv]

theorem decimalValue_fmtInt (n : Int) : decimalValue (fmtInt n) = n := by
  cases n with
  | ofNat m => exact decimalValue_natRepr m
  | negSucc m =>
    have hv := toDigitsCore_value (m + 1 + 1) (m + 1) 0 (by omega)
    simp only [Nat.zero_mul, Nat.zero_add] at hv
    show decimalValue ("-" ++ Nat.repr (m + 1)) = _
    unfold decimalValue
    simp only [Nat.repr, Nat.toDigits, List.asString, String.toList, String.data_append]
    show -(digitsValue 0 (Nat.toDigitsCore 10 (m + 1 + 1) (m + 1) []) : Int) = _
    rw [hv]
    rfl

theorem fmtInt_injective (a b : Int) (h : fmtInt a = fmtInt b) : a = b := by
  rw [← decimalValue_fmtInt a, ← decimalValue_fmtInt b, h]

/-! ## Lemmas on the paths after a 200 status -/

/-- On a 200 response whose body is not JSON, whatever error the decoder
reports, every operation returns a nil error and the empty payload. -/
theorem malformed_body_any (env : Env) (err : GoError) :
    GetListings (env.serving (.ok ⟨200, .invalid err⟩))
      = ⟨none, none, [.send newClient (requestFor GetListings.url), .decode, .close]⟩ ∧
    (∀ start limit convert,
      GetTicks (env.serving (.ok ⟨200, .invalid err⟩)) start limit convert
        = ⟨none, none,
           [.send newClient (requestFor (GetTicks.url start limit convert)), .decode, .close]⟩) ∧
    (∀ id, 0 < id →
      GetTick (env.serving (.ok ⟨200, .invalid err⟩)) id
        = ⟨Ticker.zero, none, [.send newClient (requestFor (GetTick.url id)), .decode, .close]⟩) ∧
    (∀ convert,
      GetGlobalData (env.serving (.ok ⟨200, .invalid err⟩)) convert
        = ⟨GlobalData.zero, none,
           [.send newClient (requestFor (GetGlobalData.url convert)), .decode, .close]⟩) := by
  refine ⟨rfl, fun _ _ _ => rfl, ?_, fun _ => rfl⟩
  intro id hid
  simp only [GetTick, not_le.mpr hid, ↓reduceIte]
  rfl

/-- On a 200 response whose body is a JSON object without a member named
`meta_data`, `GetGlobalData` returns a nil error, whatever the body holds under
`metadata`. -/
theorem GetGlobalData_without_meta_data (env : Env) (ms : List (String × JSON))
    (convert : String) (h : JSON.fieldValues "meta_data" ms = []) :
    (GetGlobalData (env.serving (.ok ⟨200, .value (.obj ms)⟩)) convert).err = none := by
  have he := GlobalDataResponse_decoded_error (env.serving (.ok ⟨200, .value (.obj ms)⟩)) ms h
  simp only [GetGlobalData, http.NewRequest, Env.serving, http.StatusOK, ne_eq,
    not_true_eq_false, ↓reduceIte]
  simp only [Env.serving] at he
  rw [if_neg (not_not.mpr he)]

/-! ## The claims -/

/-- C1: for every `id <= 0`, `GetTick` returns the zero `Ticker` with the error
"id is required" and performs no effect at all: the transport is invoked zero times. -/
theorem GetTick_rejects_nonpositive_id (env : Env) (id : Int) (h : id ≤ 0) :
    (GetTick env id).val = Ticker.zero ∧
    (GetTick env id).err = some (errors.New "id is required") ∧
    (GetTick env id).trace = [] ∧
    sends (GetTick env id).trace = 0 := by
  simp [GetTick, h, sends]

/-- Witness of C1 at `id = -3`, over a transport that would answer with a 200. -/
theorem GetTick_rejects_nonpositive_id_witness :
    (-3 : Int) ≤ 0 ∧
    (GetTick (Sample.env.serving (.ok ⟨200, .value (Sample.envelope Sample.bitcoinJSON .null)⟩)) (-3)).val
      = Ticker.zero ∧
    (GetTick (Sample.env.serving (.ok ⟨200, .value (Sample.envelope Sample.bitcoinJSON .null)⟩)) (-3)).err
      = some ⟨"id is required"⟩ ∧
    sends (GetTick (Sample.env.serving (.ok ⟨200, .value (Sample.envelope Sample.bitcoinJSON .null)⟩)) (-3)).trace
      = 0 :=
  have h := GetTick_rejects_nonpositive_id
    (Sample.env.serving (.ok ⟨200, .value (Sample.envelope Sample.bitcoinJSON .null)⟩)) (-3) (by decide)
  ⟨by decide, h.1, h.2.1, h.2.2.2⟩

/-- C3: a response whose status code is not 200 makes each operation fail with
the status error of its endpoint, whose message ends with the decimal numeral of
the observed code, and return the absent payload; the only effect is the one
transport invocation: the body is not decoded. The numeral is that of the
observed code and of no other (first line). -/
theorem non200_status_error (env : Env) (resp : Response)
    (h : resp.StatusCode ≠ 200) :
    (∀ c : Int, fmtInt c = fmtInt resp.StatusCode → c = resp.StatusCode) ∧
    (env.answers GetListings.url (.ok resp) →
      GetListings env = ⟨none, some (errors.New
          ("something went wrong with listings API and the response code is "
            ++ fmtInt resp.StatusCode)),
        [.send newClient (requestFor GetListings.url)]⟩ ∧
      decodes (GetListings env).trace = 0) ∧
    (∀ start limit convert, env.answers (GetTicks.url start limit convert) (.ok resp) →
      GetTicks env start limit convert = ⟨none, some (errors.New
          ("something went wrong with ticker API and the response code is "
            ++ fmtInt resp.StatusCode)),
        [.send newClient (requestFor (GetTicks.url start limit convert))]⟩ ∧
      decodes (GetTicks env start limit convert).trace = 0) ∧
    (∀ id, 0 < id → env.answers (GetTick.url id) (.ok resp) →
      GetTick env id = ⟨Ticker.zero, some (errors.New
          ("something went wrong with ticker/(id) API and the response code is "
            ++ fmtInt resp.StatusCode)),
        [.send newClient (requestFor (GetTick.url id))]⟩ ∧
      decodes (GetTick env id).trace = 0) ∧
    (∀ convert, env.answers (GetGlobalData.url convert) (.ok resp) →
      GetGlobalData env convert = ⟨GlobalData.zero, some (errors.New
          ("something went wrong with global data API and the response code is "
            ++ fmtInt resp.StatusCode)),
        [.send newClient (requestFor (GetGlobalData.url convert))]⟩ ∧
      decodes (GetGlobalData env convert).trace = 0) := by
  refine ⟨fun c hc => fmtInt_injective c _ hc, ?_, ?_, ?_, ?_⟩
  · rintro ⟨hu, hd⟩
    simp [GetListings, newRequest_accepts env _ hu, addHeaders_eq, hd, h, http.StatusOK, decodes]
  · rintro start limit convert ⟨hu, hd⟩
    simp [GetTicks, newRequest_accepts env _ hu, addHeaders_eq, hd, h, http.StatusOK, decodes]
  · rintro id hid ⟨hu, hd⟩
    simp [GetTick, not_le.mpr hid, newRequest_accepts env _ hu, addHeaders_eq, hd, h,
      http.StatusOK, decodes]
  · rintro convert ⟨hu, hd⟩
    simp [GetGlobalData, newRequest_accepts env _ hu, addHeaders_eq, hd, h, http.StatusOK, decodes]

/-- Witness of C3 at a 404 response carrying a well-formed envelope. -/
theorem non200_status_error_witness :
    GetListings (Sample.env.serving (.ok ⟨404, .value (Sample.envelope Sample.listingsJSON .null)⟩))
      = ⟨none, some ⟨"something went wrong with listings API and the response code is 404"⟩,
         [.send newClient (requestFor "https://api.coinmarketcap.com/v2/listings/")]⟩ ∧
    GetTick (Sample.env.serving (.ok ⟨404, .value (Sample.envelope Sample.listingsJSON .null)⟩)) 1
      = ⟨Ticker.zero, some ⟨"something went wrong with ticker/(id) API and the response code is 404"⟩,
         [.send newClient (requestFor "https://api.coinmarketcap.com/v2/ticker/1/")]⟩ :=
  have h := non200_status_error
    (Sample.env.serving (.ok ⟨404, .value (Sample.envelope Sample.listingsJSON .null)⟩))
    ⟨404, .value (Sample.envelope Sample.listingsJSON .null)⟩ (by decide)
  ⟨(h.2.1 ⟨rfl, rfl⟩).1, (h.2.2.2.1 1 (by decide) ⟨rfl, rfl⟩).1⟩

/-- C9: when the transport fails with `err`, each operation returns that same
`err` with the absent payload, and its only effect is the one transport
invocation: nothing is sent again, no body is decoded or closed. -/
theorem transport_error_propagates (env : Env) (err : GoError) :
    (env.answers GetListings.url (.error err) →
      GetListings env = ⟨none, some err, [.send newClient (requestFor GetListings.url)]⟩ ∧
      sends (GetListings env).trace = 1 ∧ decodes (GetListings env).trace = 0) ∧
    (∀ start limit convert, env.answers (GetTicks.url start limit convert) (.error err) →
      GetTicks env start limit convert
        = ⟨none, some err, [.send newClient (requestFor (GetTicks.url start limit convert))]⟩ ∧
      sends (GetTicks env start limit convert).trace = 1 ∧
      decodes (GetTicks env start limit convert).trace = 0) ∧
    (∀ id, 0 < id → env.answers (GetTick.url id) (.error err) →
      GetTick env id = ⟨Ticker.zero, some err, [.send newClient (requestFor (GetTick.url id))]⟩ ∧
      sends (GetTick env id).trace = 1 ∧ decodes (GetTick env id).trace = 0) ∧
    (∀ convert, env.answers (GetGlobalData.url convert) (.error err) →
      GetGlobalData env convert
        = ⟨GlobalData.zero, some err, [.send newClient (requestFor (GetGlobalData.url convert))]⟩ ∧
      sends (GetGlobalData env convert).trace = 1 ∧
      decodes (GetGlobalData env convert).trace = 0) := by
  refine ⟨?_, ?_, ?_, ?_⟩
  · rintro ⟨hu, hd⟩
    simp [GetListings, newRequest_accepts env _ hu, addHeaders_eq, hd, sends, decodes]
  · rintro start limit convert ⟨hu, hd⟩
    simp [GetTicks, newRequest_accepts env _ hu, addHeaders_eq, hd, sends, decodes]
  · rintro id hid ⟨hu, hd⟩
    simp [GetTick, not_le.mpr hid, newRequest_accepts env _ hu, addHeaders_eq, hd, sends, decodes]
  · rintro convert ⟨hu, hd⟩
    simp [GetGlobalData, newRequest_accepts env _ hu, addHeaders_eq, hd, sends, decodes]

/-- Witness of C9 over a transport that refuses every connection. -/
theorem transport_error_propagates_witness :
    GetListings Sample.env
      = ⟨none, some ⟨"dial tcp: connection refused"⟩,
         [.send newClient (requestFor "https://api.coinmarketcap.com/v2/listings/")]⟩ ∧
    (GetTick Sample.env 1).err = some ⟨"dial tcp: connection refused"⟩ ∧
    (GetTick Sample.env 1).val = Ticker.zero ∧
    sends (GetTick Sample.env 1).trace = 1 :=
  have h := transport_error_propagates Sample.env ⟨"dial tcp: connection refused"⟩
  have h3 := h.2.2.1 1 (by decide) ⟨rfl, rfl⟩
  ⟨(h.1 ⟨rfl, rfl⟩).1, by rw [h3.1], by rw [h3.1], h3.2.1⟩

/-! ### Request URLs -/

theorem GetListings_requests (env : Env) :
    env.requests GetListings.url (GetListings env).trace := by
  unfold Env.requests
  cases hu : env.urlError GetListings.url
  · rw [if_pos rfl]
    unfold GetListings http.NewRequest
    simp only [hu]
    split <;> (try split) <;> (try split) <;> simp [requestedURLs, Request.addHeader]
  · unfold GetListings http.NewRequest
    simp [hu, requestedURLs]

theorem GetTicks_requests (env : Env) (start limit : Int) (convert : String) :
    env.requests (GetTicks.url start limit convert) (GetTicks env start limit convert).trace := by
  unfold Env.requests
  cases hu : env.urlError (GetTicks.url start limit convert)
  · rw [if_pos rfl]
    unfold GetTicks http.NewRequest
    simp only [hu]
    split <;> (try split) <;> (try split) <;> simp [requestedURLs, Request.addHeader]
  · unfold GetTicks http.NewRequest
    simp [hu, requestedURLs]

theorem GetTick_requests (env : Env) (id : Int) (hid : 0 < id) :
    env.requests (GetTick.url id) (GetTick env id).trace := by
  unfold Env.requests
  cases hu : env.urlError (GetTick.url id)
  · rw [if_pos rfl]
    unfold GetTick http.NewRequest
    rw [if_neg (not_le.mpr hid)]
    simp only [hu]
    split <;> (try split) <;> (try split) <;> simp [requestedURLs, Request.addHeader]
  · unfold GetTick http.NewRequest
    rw [if_neg (not_le.mpr hid)]
    simp [hu, requestedURLs]

theorem GetGlobalData_requests (env : Env) (convert : String) :
    env.requests (GetGlobalData.url convert) (GetGlobalData env convert).trace := by
  unfold Env.requests
  cases hu : env.urlError (GetGlobalData.url convert)
  · rw [if_pos rfl]
    unfold GetGlobalData http.NewRequest
    simp only [hu]
    split <;> (try split) <;> (try split) <;> simp [requestedURLs, Request.addHeader]
  · unfold GetGlobalData http.NewRequest
    simp [hu, requestedURLs]

theorem GetTick_url_eq (id : Int) :
    GetTick.url id = "https://api.coinmarketcap.com/v2/ticker/" ++ fmtInt id ++ "/" := rfl

theorem GetGlobalData_url_convert (convert : String) (h : convert ≠ "") :
    GetGlobalData.url convert = "https://api.coinmarketcap.com/v2/global/?convert=" ++ convert := by
  simp [GetGlobalData.url, h]
  rfl

theorem GetTicks_url_start (start : Int) (h : start ≠ 0) :
    GetTicks.url start 0 "" = "https://api.coinmarketcap.com/v2/ticker/?start=" ++ fmtInt start := by
  simp [GetTicks.url, h, ← String.append_assoc]
  rfl

theorem GetTicks_url_limit (limit : Int) (h : limit ≠ 0) :
    GetTicks.url 0 limit "" = "https://api.coinmarketcap.com/v2/ticker/?limit=" ++ fmtInt limit := by
  simp [GetTicks.url, h, ← String.append_assoc]
  rfl

theorem GetTicks_url_convert (convert : String) (h : convert ≠ "") :
    GetTicks.url 0 0 convert = "https://api.coinmarketcap.com/v2/ticker/?convert=" ++ convert := by
  simp [GetTicks.url, h, ← String.append_assoc]
  rfl

/-- C10: the URL of every call with at most one query parameter is the fixed
base followed by the endpoint's path and the optional query. Each line says that
the call's requests go to the URL shown and nowhere else (one request when
`http.NewRequest` accepts that URL, none when it rejects it). -/
theorem request_url_of_each_call (env : Env) :
    env.requests "https://api.coinmarketcap.com/v2/listings/" (GetListings env).trace ∧
    (∀ id : Int, 0 < id →
      env.requests ("https://api.coinmarketcap.com/v2/ticker/" ++ fmtInt id ++ "/")
        (GetTick env id).trace) ∧
    env.requests "https://api.coinmarketcap.com/v2/global/" (GetGlobalData env "").trace ∧
    (∀ c : String, c ≠ "" →
      env.requests ("https://api.coinmarketcap.com/v2/global/?convert=" ++ c)
        (GetGlobalData env c).trace) ∧
    env.requests "https://api.coinmarketcap.com/v2/ticker/" (GetTicks env 0 0 "").trace ∧
    (∀ start : Int, start ≠ 0 →
      env.requests ("https://api.coinmarketcap.com/v2/ticker/?start=" ++ fmtInt start)
        (GetTicks env start 0 "").trace) ∧
    (∀ limit : Int, limit ≠ 0 →
      env.requests ("https://api.coinmarketcap.com/v2/ticker/?limit=" ++ fmtInt limit)
        (GetTicks env 0 limit "").trace) ∧
    (∀ convert : String, convert ≠ "" →
      env.requests ("https://api.coinmarketcap.com/v2/ticker/?convert=" ++ convert)
        (GetTicks env 0 0 convert).trace) := by
  refine ⟨GetListings_requests env, ?_, GetGlobalData_requests env "", ?_,
    GetTicks_requests env 0 0 "", ?_, ?_, ?_⟩
  · intro id hid
    rw [← GetTick_url_eq]
    exact GetTick_requests env id hid
  · intro c hc
    rw [← GetGlobalData_url_convert c hc]
    exact GetGlobalData_requests env c
  · intro start h
    rw [← GetTicks_url_start start h]
    exact GetTicks_requests env start 0 ""
  · intro limit h
    rw [← GetTicks_url_limit limit h]
    exact GetTicks_requests env 0 limit ""
  · intro convert h
    rw [← GetTicks_url_convert convert h]
    exact GetTicks_requests env 0 0 convert

/-- Witness of C10: the URLs requested for id 1, for the conversion EUR, for
start 2 and for limit 10. -/
theorem request_url_of_each_call_witness :
    requestedURLs (GetTick Sample.env 1).trace = ["https://api.coinmarketcap.com/v2/ticker/1/"] ∧
    requestedURLs (GetGlobalData Sample.env "EUR").trace
      = ["https://api.coinmarketcap.com/v2/global/?convert=EUR"] ∧
    requestedURLs (GetTicks Sample.env 2 0 "").trace
      = ["https://api.coinmarketcap.com/v2/ticker/?start=2"] ∧
    requestedURLs (GetTicks Sample.env 0 10 "").trace
      = ["https://api.coinmarketcap.com/v2/ticker/?limit=10"] ∧
    requestedURLs (GetTicks Sample.env 0 0 "EUR").trace
      = ["https://api.coinmarketcap.com/v2/ticker/?convert=EUR"] :=
  have h := request_url_of_each_call Sample.env
  ⟨h.2.1 1 (by decide), h.2.2.2.1 "EUR" (by decide), h.2.2.2.2.2.1 2 (by decide),
    h.2.2.2.2.2.2.1 10 (by decide), h.2.2.2.2.2.2.2 "EUR" (by decide)⟩

/-- C2 (the code departs from it): `GetTicks(2, 10, "EUR")` requests a URL in
which every parameter is introduced by its own question mark. The URL has three
question marks, and a standard parser reads from it the single pair whose key
is `start` and whose value is `2?limit=10?convert=EUR`, not the three pairs. -/
theorem GetTicks_three_parameters_url :
    requestedURLs (GetTicks Sample.env 2 10 "EUR").trace
      = ["https://api.coinmarketcap.com/v2/ticker/?start=2?limit=10?convert=EUR"] ∧
    questionMarks "https://api.coinmarketcap.com/v2/ticker/?start=2?limit=10?convert=EUR" = 3 ∧
    queryPairs "https://api.coinmarketcap.com/v2/ticker/?start=2?limit=10?convert=EUR"
      = [("start", "2?limit=10?convert=EUR")] ∧
    queryPairs "https://api.coinmarketcap.com/v2/ticker/?start=2&limit=10&convert=EUR"
      = [("start", "2"), ("limit", "10"), ("convert", "EUR")] := by
  decide

/-- C6 (the code departs from it): on a 200 response whose body is not JSON,
every operation drops the decoder's error and returns a nil error together with
the empty payload: nil slice, nil map, zero `Ticker`, zero `GlobalData`. -/
theorem malformed_body_returns_no_error :
    GetListings (Sample.env.serving (.ok ⟨200, Sample.garbage⟩))
      = ⟨none, none,
         [.send newClient (requestFor "https://api.coinmarketcap.com/v2/listings/"),
          .decode, .close]⟩ ∧
    GetTicks (Sample.env.serving (.ok ⟨200, Sample.garbage⟩)) 0 0 ""
      = ⟨none, none,
         [.send newClient (requestFor "https://api.coinmarketcap.com/v2/ticker/"),
          .decode, .close]⟩ ∧
    GetTick (Sample.env.serving (.ok ⟨200, Sample.garbage⟩)) 1
      = ⟨Ticker.zero, none,
         [.send newClient (requestFor "https://api.coinmarketcap.com/v2/ticker/1/"),
          .decode, .close]⟩ ∧
    GetGlobalData (Sample.env.serving (.ok ⟨200, Sample.garbage⟩)) ""
      = ⟨GlobalData.zero, none,
         [.send newClient (requestFor "https://api.coinmarketcap.com/v2/global/"),
          .decode, .close]⟩ :=
  ⟨rfl, rfl, rfl, rfl⟩

/-- The close counter after a call answered with `resp`, for every response: the
body is closed once when the status is 200, whatever the body holds, and not at
all otherwise. -/
theorem closes_after_response (env : Env) (resp : Response) :
    closes (GetListings (env.serving (.ok resp))).trace
      = (if resp.StatusCode = 200 then 1 else 0) ∧
    (∀ start limit convert,
      closes (GetTicks (env.serving (.ok resp)) start limit convert).trace
        = (if resp.StatusCode = 200 then 1 else 0)) ∧
    (∀ id, 0 < id →
      closes (GetTick (env.serving (.ok resp)) id).trace
        = (if resp.StatusCode = 200 then 1 else 0)) ∧
    (∀ convert,
      closes (GetGlobalData (env.serving (.ok resp)) convert).trace
        = (if resp.StatusCode = 200 then 1 else 0)) := by
  refine ⟨?_, ?_, ?_, ?_⟩
  · by_cases h : resp.StatusCode = 200
    · simp only [GetListings, http.NewRequest, Env.serving, h, http.StatusOK, ne_eq,
        not_true_eq_false, ↓reduceIte]
      split <;> simp [closes]
    · simp [GetListings, http.NewRequest, Env.serving, h, http.StatusOK, closes]
  · intro start limit convert
    by_cases h : resp.StatusCode = 200
    · simp only [GetTicks, http.NewRequest, Env.serving, h, http.StatusOK, ne_eq,
        not_true_eq_false, ↓reduceIte]
      split <;> simp [closes]
    · simp [GetTicks, http.NewRequest, Env.serving, h, http.StatusOK, closes]
  · intro id hid
    by_cases h : resp.StatusCode = 200
    · simp only [GetTick, http.NewRequest, Env.serving, h, http.StatusOK, not_le.mpr hid, ne_eq,
        not_true_eq_false, ↓reduceIte]
      split <;> simp [closes]
    · simp [GetTick, http.NewRequest, Env.serving, h, http.StatusOK, closes, not_le.mpr hid]
  · intro convert
    by_cases h : resp.StatusCode = 200
    · simp only [GetGlobalData, http.NewRequest, Env.serving, h, http.StatusOK, ne_eq,
        not_true_eq_false, ↓reduceIte]
      split <;> simp [closes]
    · simp [GetGlobalData, http.NewRequest, Env.serving, h, http.StatusOK, closes]

/-- C7 (the code departs from it): on a response with status 404 every operation
returns without closing the body: the close counter is 0, not 1. -/
theorem body_left_open_on_non200 :
    closes (GetListings (Sample.env.serving
      (.ok ⟨404, .value (Sample.envelope Sample.listingsJSON .null)⟩))).trace = 0 ∧
    closes (GetTicks (Sample.env.serving
      (.ok ⟨404, .value (Sample.envelope Sample.tickersJSON .null)⟩)) 0 0 "").trace = 0 ∧
    closes (GetTick (Sample.env.serving
      (.ok ⟨404, .value (Sample.envelope Sample.bitcoinJSON .null)⟩)) 1).trace = 0 ∧
    closes (GetGlobalData (Sample.env.serving
      (.ok ⟨404, .value (Sample.envelope Sample.globalDataJSON .null)⟩)) "").trace = 0 := by
  decide

/-- C4: on a 200 response whose body is a JSON object with one member named
`metadata`, an object with one member named `error`, a non-empty string `m`,
each of `GetListings`, `GetTicks` and `GetTick` (for `id > 0`) fails with the
error whose message is `m` and returns the absent payload, whatever the other
members of the body are, `data` included. -/
theorem embedded_error_fails (env : Env) (resp : Response)
    (ms mds : List (String × JSON)) (m : String)
    (hstatus : resp.StatusCode = 200)
    (hbody : resp.Body = .value (.obj ms))
    (hmeta : JSON.fieldValues "metadata" ms = [.obj mds])
    (herr : JSON.fieldValues "error" mds = [.str m])
    (hm : m ≠ "") :
    (env.answers GetListings.url (.ok resp) →
      GetListings env = ⟨none, some (errors.New m),
        [.send newClient (requestFor GetListings.url), .decode, .close]⟩) ∧
    (∀ start limit convert, env.answers (GetTicks.url start limit convert) (.ok resp) →
      GetTicks env start limit convert = ⟨none, some (errors.New m),
        [.send newClient (requestFor (GetTicks.url start limit convert)), .decode, .close]⟩) ∧
    (∀ id, 0 < id → env.answers (GetTick.url id) (.ok resp) →
      GetTick env id = ⟨Ticker.zero, some (errors.New m),
        [.send newClient (requestFor (GetTick.url id)), .decode, .close]⟩) := by
  refine ⟨?_, ?_, ?_⟩
  · rintro ⟨hu, hd⟩
    simp [GetListings, newRequest_accepts env _ hu, addHeaders_eq, hd, hstatus, http.StatusOK,
      hbody, ListingsResponse_decoded_error env ms mds m hmeta herr, hm]
  · rintro start limit convert ⟨hu, hd⟩
    simp [GetTicks, newRequest_accepts env _ hu, addHeaders_eq, hd, hstatus, http.StatusOK,
      hbody, TickersResponse_decoded_error env ms mds m hmeta herr, hm]
  · rintro id hid ⟨hu, hd⟩
    simp [GetTick, not_le.mpr hid, newRequest_accepts env _ hu, addHeaders_eq, hd, hstatus,
      http.StatusOK, hbody, TickerResponse_decoded_error env ms mds m hmeta herr, hm]

/-- Witness of C4: envelopes with a well-formed, non-empty `data` and the
embedded error `boom`. -/
theorem embedded_error_fails_witness :
    GetListings (Sample.env.serving
        (.ok ⟨200, .value (Sample.envelope Sample.listingsJSON (.str "boom"))⟩))
      = ⟨none, some ⟨"boom"⟩,
         [.send newClient (requestFor "https://api.coinmarketcap.com/v2/listings/"),
          .decode, .close]⟩ ∧
    GetTicks (Sample.env.serving
        (.ok ⟨200, .value (Sample.envelope Sample.listingsJSON (.str "boom"))⟩)) 0 10 ""
      = ⟨none, some ⟨"boom"⟩,
         [.send newClient (requestFor "https://api.coinmarketcap.com/v2/ticker/?limit=10"),
          .decode, .close]⟩ ∧
    GetTick (Sample.env.serving
        (.ok ⟨200, .value (Sample.envelope Sample.listingsJSON (.str "boom"))⟩)) 1
      = ⟨Ticker.zero, some ⟨"boom"⟩,
         [.send newClient (requestFor "https://api.coinmarketcap.com/v2/ticker/1/"),
          .decode, .close]⟩ :=
  have h := embedded_error_fails
    (Sample.env.serving (.ok ⟨200, .value (Sample.envelope Sample.listingsJSON (.str "boom"))⟩))
    ⟨200, .value (Sample.envelope Sample.listingsJSON (.str "boom"))⟩
    (Sample.envelopeMembers Sample.listingsJSON (.str "boom"))
    (Sample.metaMembers (.str "boom")) "boom" rfl rfl rfl rfl (by decide)
  ⟨h.1 ⟨rfl, rfl⟩, h.2.1 0 10 "" ⟨rfl, rfl⟩, h.2.2 1 (by decide) ⟨rfl, rfl⟩⟩

/-- C5 (the code departs from it): `GetGlobalData` on a 200 response whose
envelope carries the error `boom` under the key `metadata` returns a nil error
and the decoded data. The embedded error is read from the key `meta_data`: the
same envelope with the metadata under that key does fail with `boom`. -/
theorem GetGlobalData_misses_metadata_error :
    GetGlobalData (Sample.env.serving
        (.ok ⟨200, .value (Sample.envelope Sample.globalDataJSON (.str "boom"))⟩)) ""
      = ⟨Sample.globalData, none,
         [.send newClient (requestFor "https://api.coinmarketcap.com/v2/global/"),
          .decode, .close]⟩ ∧
    GetGlobalData (Sample.env.serving
        (.ok ⟨200, .value (.obj [("data", Sample.globalDataJSON),
          ("meta_data", .obj (Sample.metaMembers (.str "boom")))])⟩)) ""
      = ⟨GlobalData.zero, some ⟨"boom"⟩,
         [.send newClient (requestFor "https://api.coinmarketcap.com/v2/global/"),
          .decode, .close]⟩ :=
  ⟨rfl, rfl⟩

/-- C8: on a 200 response whose body decodes without error into the endpoint's
envelope `e` with an empty embedded error, each operation returns a nil error
and exactly `e.Data`. When the body is an object with one member named `data`,
`e.Data` is what the payload store makes of that member's value, stored into
the zero payload; with the stores of `encoding/json` that is: for `GetListings`
the elements of the array in the order of the array, for `GetTicks` one
`Ticker` per member of the object under that member's name, for `GetTick` the
`Ticker` and for `GetGlobalData` the `GlobalData` read from the object. -/
theorem returns_decoded_data (env : Env) (resp : Response)
    (hstatus : resp.StatusCode = 200) :
    (∀ e : ListingsResponse, env.answers GetListings.url (.ok resp) →
      json.Decode (ListingsResponse.store env) resp.Body ListingsResponse.zero = (e, none) →
      e.MetaData.Error = "" →
      GetListings env = ⟨e.Data, none,
        [.send newClient (requestFor GetListings.url), .decode, .close]⟩ ∧
      (∀ ms d, resp.Body = .value (.obj ms) → JSON.fieldValues "data" ms = [d] →
        e.Data = (env.storeListings d none).1 ∧
        (∀ ParseFloat xs, env.usesEncodingJSON ParseFloat → d = .arr xs →
          e.Data = some (xs.map fun x => (Listing.store x Listing.zero).1)))) ∧
    (∀ (e : TickersResponse) start limit convert,
      env.answers (GetTicks.url start limit convert) (.ok resp) →
      json.Decode (TickersResponse.store env) resp.Body TickersResponse.zero = (e, none) →
      e.MetaData.Error = "" →
      GetTicks env start limit convert = ⟨e.Data, none,
        [.send newClient (requestFor (GetTicks.url start limit convert)), .decode, .close]⟩ ∧
      (∀ ms d, resp.Body = .value (.obj ms) → JSON.fieldValues "data" ms = [d] →
        e.Data = (env.storeTickers d none).1 ∧
        (∀ ParseFloat kvs, env.usesEncodingJSON ParseFloat → d = .obj kvs →
          (kvs.map Prod.fst).Nodup →
          e.Data = some (kvs.map fun kv => (kv.1, (Ticker.store ParseFloat kv.2 Ticker.zero).1))))) ∧
    (∀ (e : TickerResponse) id, 0 < id → env.answers (GetTick.url id) (.ok resp) →
      json.Decode (TickerResponse.store env) resp.Body TickerResponse.zero = (e, none) →
      e.MetaData.Error = "" →
      GetTick env id = ⟨e.Data, none,
        [.send newClient (requestFor (GetTick.url id)), .decode, .close]⟩ ∧
      (∀ ms d, resp.Body = .value (.obj ms) → JSON.fieldValues "data" ms = [d] →
        e.Data = (env.storeTicker d Ticker.zero).1 ∧
        (∀ ParseFloat, env.usesEncodingJSON ParseFloat →
          e.Data = (Ticker.store ParseFloat d Ticker.zero).1))) ∧
    (∀ (e : GlobalDataResponse) convert, env.answers (GetGlobalData.url convert) (.ok resp) →
      json.Decode (GlobalDataResponse.store env) resp.Body GlobalDataResponse.zero = (e, none) →
      e.MetaData.Error = "" →
      GetGlobalData env convert = ⟨e.Data, none,
        [.send newClient (requestFor (GetGlobalData.url convert)), .decode, .close]⟩ ∧
      (∀ ms d, resp.Body = .value (.obj ms) → JSON.fieldValues "data" ms = [d] →
        e.Data = (env.storeGlobalData d GlobalData.zero).1 ∧
        (∀ ParseFloat, env.usesEncodingJSON ParseFloat →
          e.Data = (GlobalData.store ParseFloat d GlobalData.zero).1))) := by
  refine ⟨?_, ?_, ?_, ?_⟩
  · rintro e ⟨hu, hd⟩ hdec he
    refine ⟨?_, ?_⟩
    · simp [GetListings, newRequest_accepts env _ hu, addHeaders_eq, hd, hstatus, http.StatusOK,
        hdec, he]
    · intro ms d hbody hdata
      have hdata' : e.Data = (env.storeListings d none).1 := by
        have h := ListingsResponse_decoded_data env ms d hdata
        rw [← hbody, hdec] at h
        exact h
      refine ⟨hdata', ?_⟩
      rintro ParseFloat xs ⟨hl, -, -, -⟩ rfl
      rw [hdata', hl]
      simp only [json.storeSlice, Option.getD_none, storeElements_fresh]
  · rintro e start limit convert ⟨hu, hd⟩ hdec he
    refine ⟨?_, ?_⟩
    · simp [GetTicks, newRequest_accepts env _ hu, addHeaders_eq, hd, hstatus, http.StatusOK,
        hdec, he]
    · intro ms d hbody hdata
      have hdata' : e.Data = (env.storeTickers d none).1 := by
        have h := TickersResponse_decoded_data env ms d hdata
        rw [← hbody, hdec] at h
        exact h
      refine ⟨hdata', ?_⟩
      rintro ParseFloat kvs ⟨-, hl, -, -⟩ rfl hnodup
      rw [hdata', hl]
      exact storeMap_fresh _ _ kvs hnodup
  · rintro e id hid ⟨hu, hd⟩ hdec he
    refine ⟨?_, ?_⟩
    · simp [GetTick, not_le.mpr hid, newRequest_accepts env _ hu, addHeaders_eq, hd, hstatus,
        http.StatusOK, hdec, he]
    · intro ms d hbody hdata
      have hdata' : e.Data = (env.storeTicker d Ticker.zero).1 := by
        have h := TickerResponse_decoded_data env ms d hdata
        rw [← hbody, hdec] at h
        exact h
      refine ⟨hdata', ?_⟩
      rintro ParseFloat ⟨-, -, hl, -⟩
      rw [hdata', hl]
  · rintro e convert ⟨hu, hd⟩ hdec he
    refine ⟨?_, ?_⟩
    · simp [GetGlobalData, newRequest_accepts env _ hu, addHeaders_eq, hd, hstatus,
        http.StatusOK, hdec, he]
    · intro ms d hbody hdata
      have hdata' : e.Data = (env.storeGlobalData d GlobalData.zero).1 := by
        have h := GlobalDataResponse_decoded_data env ms d hdata
        rw [← hbody, hdec] at h
        exact h
      refine ⟨hdata', ?_⟩
      rintro ParseFloat ⟨-, -, -, hl⟩
      rw [hdata', hl]

/-- Witness of C8, one envelope per endpoint, decoded by `encoding/json`: the
listing sequence litecoin, bitcoin comes back in the order of the array, the
ticker map with its two entries under the keys 2 and 1, the single ticker with
its supplies and its USD quote, the global data with its USD quote. -/
theorem returns_decoded_data_witness :
    (GetListings (Sample.env.serving
        (.ok ⟨200, .value (Sample.envelope Sample.listingsJSON .null)⟩))
      = ⟨some [Sample.litecoinListing, Sample.bitcoinListing], none,
         [.send newClient (requestFor "https://api.coinmarketcap.com/v2/listings/"),
          .decode, .close]⟩ ∧
     some [Sample.litecoinListing, Sample.bitcoinListing]
      = some ([Sample.litecoinListingJSON, Sample.bitcoinListingJSON].map
          fun x => (Listing.store x Listing.zero).1)) ∧
    (GetTicks (Sample.env.serving
        (.ok ⟨200, .value (Sample.envelope Sample.tickersJSON .null)⟩)) 0 0 ""
      = ⟨some [("2", Sample.litecoin), ("1", Sample.bitcoin)], none,
         [.send newClient (requestFor "https://api.coinmarketcap.com/v2/ticker/"),
          .decode, .close]⟩ ∧
     some [("2", Sample.litecoin), ("1", Sample.bitcoin)]
      = some ([("2", Sample.litecoinJSON), ("1", Sample.bitcoinJSON)].map
          fun kv => (kv.1, (Ticker.store Sample.ParseFloat kv.2 Ticker.zero).1))) ∧
    (GetTick (Sample.env.serving
        (.ok ⟨200, .value (Sample.envelope Sample.bitcoinJSON .null)⟩)) 1
      = ⟨Sample.bitcoin, none,
         [.send newClient (requestFor "https://api.coinmarketcap.com/v2/ticker/1/"),
          .decode, .close]⟩ ∧
     Sample.bitcoin = (Ticker.store Sample.ParseFloat Sample.bitcoinJSON Ticker.zero).1) ∧
    (GetGlobalData (Sample.env.serving
        (.ok ⟨200, .value (.obj [("data", Sample.globalDataJSON),
          ("meta_data", .obj (Sample.metaMembers .null))])⟩)) "EUR"
      = ⟨Sample.globalData, none,
         [.send newClient (requestFor "https://api.coinmarketcap.com/v2/global/?convert=EUR"),
          .decode, .close]⟩ ∧
     Sample.globalData
      = (GlobalData.store Sample.ParseFloat Sample.globalDataJSON GlobalData.zero).1) :=
  have h1 := (returns_decoded_data
    (Sample.env.serving (.ok ⟨200, .value (Sample.envelope Sample.listingsJSON .null)⟩))
    ⟨200, .value (Sample.envelope Sample.listingsJSON .null)⟩ rfl).1
    ⟨some [Sample.litecoinListing, Sample.bitcoinListing], ⟨1525137187, "", ""⟩⟩
    ⟨rfl, rfl⟩ rfl rfl
  have h2 := (returns_decoded_data
    (Sample.env.serving (.ok ⟨200, .value (Sample.envelope Sample.tickersJSON .null)⟩))
    ⟨200, .value (Sample.envelope Sample.tickersJSON .null)⟩ rfl).2.1
    ⟨⟨1525137187, "", ""⟩, some [("2", Sample.litecoin), ("1", Sample.bitcoin)]⟩ 0 0 ""
    ⟨rfl, rfl⟩ rfl rfl
  have h3 := (returns_decoded_data
    (Sample.env.serving (.ok ⟨200, .value (Sample.envelope Sample.bitcoinJSON .null)⟩))
    ⟨200, .value (Sample.envelope Sample.bitcoinJSON .null)⟩ rfl).2.2.1
    ⟨⟨1525137187, "", ""⟩, Sample.bitcoin⟩ 1 (by decide) ⟨rfl, rfl⟩ rfl rfl
  have h4 := (returns_decoded_data
    (Sample.env.serving (.ok ⟨200, .value (.obj [("data", Sample.globalDataJSON),
      ("meta_data", .obj (Sample.metaMembers .null))])⟩))
    ⟨200, .value (.obj [("data", Sample.globalDataJSON),
      ("meta_data", .obj (Sample.metaMembers .null))])⟩ rfl).2.2.2
    ⟨Sample.globalData, ⟨1525137187, "", ""⟩⟩ "EUR" ⟨rfl, rfl⟩ rfl rfl
  ⟨⟨h1.1, (h1.2 (Sample.envelopeMembers Sample.listingsJSON .null) Sample.listingsJSON rfl rfl).2
      Sample.ParseFloat [Sample.litecoinListingJSON, Sample.bitcoinListingJSON]
      ⟨rfl, rfl, rfl, rfl⟩ rfl⟩,
   ⟨h2.1, (h2.2 (Sample.envelopeMembers Sample.tickersJSON .null) Sample.tickersJSON rfl rfl).2
      Sample.ParseFloat [("2", Sample.litecoinJSON), ("1", Sample.bitcoinJSON)]
      ⟨rfl, rfl, rfl, rfl⟩ rfl (by decide)⟩,
   ⟨h3.1, (h3.2 (Sample.envelopeMembers Sample.bitcoinJSON .null) Sample.bitcoinJSON rfl rfl).2
      Sample.ParseFloat ⟨rfl, rfl, rfl, rfl⟩⟩,
   ⟨h4.1, (h4.2 [("data", Sample.globalDataJSON), ("meta_data", .obj (Sample.metaMembers .null))]
      Sample.globalDataJSON rfl rfl).2 Sample.ParseFloat ⟨rfl, rfl, rfl, rfl⟩⟩⟩

end coinmarketcap
